import Mathlib

/-!
# Verification of `lib/logger/logger.go` and `lib/bytesutil/internstring.go`

A shallow embedding of the logging pipeline of `lib/logger` (rate limiter,
message formatting, level gate, terminal severities, initialization) and of the
string interning of `lib/bytesutil`, and the properties proved about them.

Conventions of the embedding.

* Go strings are modelled as Lean `String`s, that is, as sequences of
  Unicode code points (well-formed UTF-8).
* A `uint64` is a `Nat` below `2 ^ 64`; every addition on it is reduced
  modulo `2 ^ 64` where the source adds.
* Mutexes are not modelled: every function is one atomic step on an
  explicit state.
* Side effects on the outside world (the output stream, the metrics
  registry) are recorded as traces in the state.
-/

set_option autoImplicit false

namespace Logger

/-! ## The rate limiter -/

/-- Number of values of a Go `uint64`. -/
def uint64Size : Nat := 2 ^ 64

/-- The struct `logLimiter`: its field `m` is a Go `map[string]uint64`, here a
finite-support lookup function (`none` for an absent key). -/
structure logLimiter where
  m : String → Option Nat

/-- The constructor `newLogLimiter`: an empty map. -/
def newLogLimiter : logLimiter :=
  { m := fun _ => none }

/-- The method `reset`: the map is replaced by a new empty one. -/
def logLimiter.reset (_ll : logLimiter) : logLimiter :=
  { m := fun _ => none }

/-- The assignment `ll.m[location] = n`. -/
def logLimiter.store (ll : logLimiter) (location : String) (n : Nat) : logLimiter :=
  { m := fun k => if k = location then some n else ll.m k }

/-- The value of `fmt.Sprintf("suppressing log message with rate limit=%d: ", limit)`. -/
def suppressText (limit : Nat) : String :=
  "suppressing log message with rate limit=" ++ toString limit ++ ": "

/-- The method `needSuppress`: the limiter after the call, the boolean and the
message returned. -/
def logLimiter.needSuppress (ll : logLimiter) (limit : Nat) (location : String) :
    logLimiter × Bool × String :=
  if limit = 0 then
    (ll, false, "")
  else
    match ll.m location with
    | some n =>
      if n ≥ limit then
        if n = limit then
          (ll.store location ((n + 1) % uint64Size), false, suppressText limit)
        else
          (ll, true, "")
      else
        (ll.store location ((n + 1) % uint64Size), false, "")
    | none => (ll.store location 1, false, "")

/-- A sequence of `needSuppress` calls, given as (limit, location) pairs, run
in order with no reset in between; the limiter after the last call. -/
def runCalls (ll : logLimiter) : List (Nat × String) → logLimiter
  | [] => ll
  | c :: cs => runCalls (ll.needSuppress c.1 c.2).1 cs

/-- Number of calls for location `X` in a call sequence. -/
def callsFor (X : String) (cs : List (Nat × String)) : Nat :=
  (cs.filter (fun c => c.2 = X)).length

/-- What the `k`-th call for one location is expected to return under limit `L`. -/
def expectedReturn (L k : Nat) : Bool × String :=
  if k ≤ L then (false, "")
  else if k = L + 1 then (false, "suppressing log message with rate limit=" ++ Nat.repr L ++ ": ")
  else (true, "")


/-! ## Levels, configuration and state -/

/-- Modelled from the spec: the type `logLevel` and its constants `levelInfo` ..
`levelPanic` are declared outside the files at hand; the spec gives the
severities INFO, WARN, ERROR, FATAL, PANIC, totally ordered by numeric rank. -/
inductive logLevel
  | levelInfo
  | levelWarn
  | levelError
  | levelFatal
  | levelPanic
  deriving DecidableEq

open logLevel (levelInfo levelWarn levelError levelFatal levelPanic)

/-- Modelled from the spec: the numeric rank of a level, in the order of the
spec's list of severities. -/
def logLevel.rank : logLevel → Nat
  | levelInfo => 0
  | levelWarn => 1
  | levelError => 2
  | levelFatal => 3
  | levelPanic => 4

/-- Modelled from the spec: the method `String` of `logLevel`, declared outside
the files at hand; the spec renders a level as its upper-case name. -/
def logLevel.String : logLevel → String
  | levelInfo => "INFO"
  | levelWarn => "WARN"
  | levelError => "ERROR"
  | levelFatal => "FATAL"
  | levelPanic => "PANIC"

/-- Modelled from the spec: the JSON key `fieldTs`, declared outside the files
at hand; the spec gives the literal key `ts`. -/
def fieldTs : String := "ts"

/-- Modelled from the spec: the JSON key `fieldLevel`, declared outside the
files at hand; the spec gives the literal key `level`. -/
def fieldLevel : String := "level"

/-- Modelled from the spec: the JSON key `fieldCaller`, declared outside the
files at hand; the spec gives the literal key `caller`. -/
def fieldCaller : String := "caller"

/-- Modelled from the spec: the JSON key `fieldMsg`, declared outside the files
at hand; the spec gives the literal key `msg`. -/
def fieldMsg : String := "msg"

/-- An operand of a log call: a Go `int`, a `string` or a `[]byte`. -/
inductive Arg
  | int (i : Int)
  | str (s : String)
  | bytes (p : String)

/-- The values fixed once the process is configured: the command-line flags
read by the logger, the package variable `minLogLevel` and
`buildinfo.Version`. The two limits are Go `int`s. -/
structure Config where
  loggerFormat : String
  disableTimestamps : Bool
  errorsPerSecondLimit : Int
  warnsPerSecondLimit : Int
  minLogLevel : logLevel
  version : String

/-- The result `(file, line, ok)` of `runtime.Caller`. -/
structure CallSite where
  file : String
  line : Int
  ok : Bool

/-- What one log call reads from its surroundings: `now` is the value of
`time.Now().In(timezone).Format("2006-01-02T15:04:05.000Z0700")` and
`caller skip` the result of `runtime.Caller(skip)` inside `logMessage`. -/
structure Env where
  now : String
  caller : Int → CallSite

/-- The parts of the Go standard library taken as given: `isPrintWide` is
`strconv.IsPrint` above U+00FF (a table lookup there) and `sprintfOther` is
`fmt.Sprintf` on the format strings and operands outside the fragment that
`sprintfCore` covers. -/
structure Lib where
  isPrintWide : Char → Bool
  sprintfOther : String → List Arg → String

/-- The mutable state the logger acts on: the rate limiter, the strings
written to `output` (oldest first) and the names of the counters on which
`Inc` was called (oldest first). -/
structure State where
  limiter : logLimiter
  output : List String
  counters : List String

/-- How a call ends: it returns to its caller, the process exits through
`os.Exit(code)`, or a Go panic is raised with an error made by `errors.New`. -/
inductive Outcome
  | returned
  | exited (code : Int)
  | panicked (err : String)
  deriving DecidableEq

/-- The conversion `uint64(i)` of a Go `int`. -/
def toUint64 (i : Int) : Nat :=
  (i % (uint64Size : Int)).toNat

/-! ## Standard-library functions used by `logMessage` -/

/-- The function `strings.Index` on code points: the offset of the first
occurrence of `substr` at or after offset `i`, or `-1`. -/
def indexFrom (substr : List Char) : List Char → Nat → Int
  | [], i => if substr = [] then (i : Int) else -1
  | c :: cs, i => if substr.isPrefixOf (c :: cs) then (i : Int) else indexFrom substr cs (i + 1)

/-- The function `strings.Index`, offsets counted in code points. -/
def stringsIndex (s substr : String) : Int :=
  indexFrom substr.data s.data 0

/-- The table `lowerhex` of `strconv`, indexed by a value reduced to four bits. -/
def hexDigit (n : Nat) : Char :=
  "0123456789abcdef".data.getD (n % 16) '0'

/-- The function `strconv.IsPrint`. -/
def IsPrint (isPrintWide : Char → Bool) (r : Char) : Bool :=
  if r.toNat ≤ 0xFF then
    if 0x20 ≤ r.toNat ∧ r.toNat ≤ 0x7E then true
    else if 0xA1 ≤ r.toNat ∧ r.toNat ≤ 0xFF then r.toNat ≠ 0xAD
    else false
  else isPrintWide r

/-- The function `appendEscapedRune` of `strconv` as `strconv.Quote` calls it
(double quote, neither ASCII-only nor graphic-only): the text one code point is
rendered as. The branch for invalid runes does not arise for a code point. -/
def appendEscapedRune (isPrintWide : Char → Bool) (r : Char) : List Char :=
  if r = '"' ∨ r = '\\' then ['\\', r]
  else if IsPrint isPrintWide r then [r]
  else if r.toNat = 0x07 then ['\\', 'a']
  else if r.toNat = 0x08 then ['\\', 'b']
  else if r.toNat = 0x0C then ['\\', 'f']
  else if r.toNat = 0x0A then ['\\', 'n']
  else if r.toNat = 0x0D then ['\\', 'r']
  else if r.toNat = 0x09 then ['\\', 't']
  else if r.toNat = 0x0B then ['\\', 'v']
  else if r.toNat < 0x20 ∨ r.toNat = 0x7F then
    ['\\', 'x', hexDigit (r.toNat / 16), hexDigit r.toNat]
  else if r.toNat < 0x10000 then
    ['\\', 'u', hexDigit (r.toNat / 2 ^ 12), hexDigit (r.toNat / 2 ^ 8),
      hexDigit (r.toNat / 2 ^ 4), hexDigit r.toNat]
  else
    ['\\', 'U', hexDigit (r.toNat / 2 ^ 28), hexDigit (r.toNat / 2 ^ 24),
      hexDigit (r.toNat / 2 ^ 20), hexDigit (r.toNat / 2 ^ 16),
      hexDigit (r.toNat / 2 ^ 12), hexDigit (r.toNat / 2 ^ 8),
      hexDigit (r.toNat / 2 ^ 4), hexDigit r.toNat]

/-- The function `strconv.Quote`, which is what the verb `%q` of `fmt` applies
to a string operand. -/
def Quote (isPrintWide : Char → Bool) (s : String) : String :=
  String.mk ('"' :: (s.data.flatMap (appendEscapedRune isPrintWide) ++ ['"']))

/-! ## `fmt.Sprintf` on the caller's format string -/

/-- The text a verb without flags renders an operand as, for the pairs of verb
and operand of the fragment: `%d` on an `int`, `%s` on a `string` or `[]byte`. -/
def verbText (verb : Char) (a : Arg) : Option (List Char) :=
  match a with
  | Arg.int i => if verb = 'd' then some (toString i).data else none
  | Arg.str s => if verb = 's' then some s.data else none
  | Arg.bytes p => if verb = 's' then some p.data else none

/-- The fragment of `fmt.Sprintf` with the directives `%%`, `%d` and `%s`, no
flags or widths, and as many operands as directives; `none` outside it. -/
def sprintfCore : List Char → List Arg → Option (List Char)
  | [], args => if args.isEmpty then some [] else none
  | [c], args => if c = '%' then none else if args.isEmpty then some [c] else none
  | c :: v :: rest, args =>
    if c ≠ '%' then (sprintfCore (v :: rest) args).map (fun t => c :: t)
    else if v = '%' then (sprintfCore rest args).map (fun t => '%' :: t)
    else
      match args with
      | [] => none
      | a :: args' =>
        match verbText v a with
        | none => none
        | some t => (sprintfCore rest args').map (fun u => t ++ u)

/-- The function `fmt.Sprintf`. -/
def Sprintf (lib : Lib) (format : String) (args : List Arg) : String :=
  match sprintfCore format.data args with
  | some t => String.mk t
  | none => lib.sprintfOther format args

/-! ## `logMessage` -/

/-- The caller location computed at the start of `logMessage`
(lines 199 to 208): `"???"` and line 0 when the caller is unknown, the part of
the file name after the first `/VictoriaMetrics/` when there is one, then
`fmt.Sprintf("%s:%d", file, line)`. -/
def callerLocation (env : Env) (skipframes : Int) : String :=
  let cs := env.caller skipframes
  let file := if cs.ok then cs.file else "???"
  let line := if cs.ok then cs.line else 0
  let n := stringsIndex file "/VictoriaMetrics/"
  let file := if n ≥ 0 then String.mk (file.data.drop (n.toNat + "/VictoriaMetrics/".length))
    else file
  file ++ ":" ++ toString line

/-- The loop of lines 225 to 227: while the message is not empty and its last
character is a newline, drop that character; `fuel` bounds the iterations. -/
def trimLoop : Nat → List Char → List Char
  | 0, msg => msg
  | fuel + 1, msg =>
    if msg.length > 0 ∧ msg.getLast? = some '\n' then trimLoop fuel msg.dropLast else msg

/-- The message after the loop of lines 225 to 227. The loop runs at most
once for each character of the message. -/
def trimNewlines (msg : String) : String :=
  String.mk (trimLoop msg.length msg.data)

/-- The string `logMsg` built in lines 228 to 253 from the four `fmt.Sprintf`
calls, `%s` rendering an operand as it is (a level through `String`) and `%q`
through `strconv.Quote`. -/
def formatLine (isPrintWide : Char → Bool) (cfg : Config) (timestamp : String)
    (level : logLevel) (location msg : String) : String :=
  let q := Quote isPrintWide
  if cfg.loggerFormat = "json" then
    if cfg.disableTimestamps then
      "\x7b" ++ q fieldLevel ++ ":" ++ q level.String ++ "," ++ q fieldCaller ++ ":" ++ q location
        ++ "," ++ q fieldMsg ++ ":" ++ q msg ++ "\x7d" ++ "\n"
    else
      "\x7b" ++ q fieldTs ++ ":" ++ q timestamp ++ "," ++ q fieldLevel ++ ":" ++ q level.String
        ++ "," ++ q fieldCaller ++ ":" ++ q location ++ "," ++ q fieldMsg ++ ":" ++ q msg
        ++ "\x7d" ++ "\n"
  else
    if cfg.disableTimestamps then
      level.String ++ "\t" ++ location ++ "\t" ++ msg ++ "\n"
    else
      timestamp ++ "\t" ++ level.String ++ "\t" ++ location ++ "\t" ++ msg ++ "\n"

/-- The counter name of line 261:
`fmt.Sprintf("vm_log_messages_total{app_version=%q, level=%q, location=%q}", ...)`. -/
def counterName (isPrintWide : Char → Bool) (cfg : Config) (level : logLevel)
    (location : String) : String :=
  let q := Quote isPrintWide
  "vm_log_messages_total\x7bapp_version=" ++ q cfg.version ++ ", level=" ++ q level.String
    ++ ", location=" ++ q location ++ "\x7d"

/-- The final `switch level` of `logMessage` (lines 264 to 273). -/
def terminalAction (cfg : Config) (level : logLevel) (msg : String) : Outcome :=
  match level with
  | levelPanic =>
    if cfg.loggerFormat = "json" then Outcome.exited (-1) else Outcome.panicked msg
  | levelFatal => Outcome.exited (-1)
  | _ => Outcome.returned

/-- The variable `timestamp` of `logMessage` (lines 195 to 198): empty when time
stamps are disabled. -/
def timestampOf (cfg : Config) (env : Env) : String :=
  if !cfg.disableTimestamps then env.now else ""

/-- Lines 225 to 273 of `logMessage`: trim the message, build the line, write
it, increment the counter, then act on the level. -/
def emit (lib : Lib) (cfg : Config) (env : Env) (st : State) (level : logLevel)
    (location msg : String) : State × Outcome :=
  let timestamp := timestampOf cfg env
  let msg := trimNewlines msg
  let logMsg := formatLine lib.isPrintWide cfg timestamp level location msg
  let st := { st with output := st.output ++ [logMsg] }
  let st := { st with counters := st.counters ++ [counterName lib.isPrintWide cfg level location] }
  (st, terminalAction cfg level msg)

/-- The function `logMessage`. -/
def logMessage (lib : Lib) (cfg : Config) (env : Env) (st : State) (skipframes : Int)
    (level : logLevel) (msg : String) : State × Outcome :=
  let location := callerLocation env skipframes
  if level = levelError ∨ level = levelWarn then
    let limit := if level = levelWarn then toUint64 cfg.warnsPerSecondLimit
      else toUint64 cfg.errorsPerSecondLimit
    let r := st.limiter.needSuppress limit location
    let st := { st with limiter := r.1 }
    if r.2.1 then
      (st, Outcome.returned)
    else
      let msg := if r.2.2.length > 0 then r.2.2 ++ msg else msg
      emit lib cfg env st level location msg
  else
    emit lib cfg env st level location msg

/-! ## The entry points -/

/-- The function `logfSkipframes`. -/
def logfSkipframes (lib : Lib) (cfg : Config) (env : Env) (st : State) (skipframes : Int)
    (level : logLevel) (format : String) (args : List Arg) : State × Outcome :=
  if level.rank < cfg.minLogLevel.rank then
    (st, Outcome.returned)
  else
    let msg := Sprintf lib format args
    logMessage lib cfg env st (3 + skipframes) level msg

/-- The function `logf`. -/
def logf (lib : Lib) (cfg : Config) (env : Env) (st : State) (level : logLevel)
    (format : String) (args : List Arg) : State × Outcome :=
  logfSkipframes lib cfg env st 1 level format args

/-- The function `Infof`. -/
def Infof (lib : Lib) (cfg : Config) (env : Env) (st : State) (format : String)
    (args : List Arg) : State × Outcome :=
  logf lib cfg env st levelInfo format args

/-- The function `Warnf`. -/
def Warnf (lib : Lib) (cfg : Config) (env : Env) (st : State) (format : String)
    (args : List Arg) : State × Outcome :=
  logf lib cfg env st levelWarn format args

/-- The function `Errorf`. -/
def Errorf (lib : Lib) (cfg : Config) (env : Env) (st : State) (format : String)
    (args : List Arg) : State × Outcome :=
  logf lib cfg env st levelError format args

/-- The function `WarnfSkipframes`. -/
def WarnfSkipframes (lib : Lib) (cfg : Config) (env : Env) (st : State) (skipframes : Int)
    (format : String) (args : List Arg) : State × Outcome :=
  logfSkipframes lib cfg env st skipframes levelWarn format args

/-- The function `ErrorfSkipframes`. -/
def ErrorfSkipframes (lib : Lib) (cfg : Config) (env : Env) (st : State) (skipframes : Int)
    (format : String) (args : List Arg) : State × Outcome :=
  logfSkipframes lib cfg env st skipframes levelError format args

/-- The function `Fatalf`. -/
def Fatalf (lib : Lib) (cfg : Config) (env : Env) (st : State) (format : String)
    (args : List Arg) : State × Outcome :=
  logf lib cfg env st levelFatal format args

/-- The function `Panicf`. -/
def Panicf (lib : Lib) (cfg : Config) (env : Env) (st : State) (format : String)
    (args : List Arg) : State × Outcome :=
  logf lib cfg env st levelPanic format args

/-- The method `Write` of `stdErrorWriter`: the state and the outcome of its
`logfSkipframes` call and, when that call returns, the pair `(len(p), nil)`
that `Write` returns. The byte slice `p` is given by its text, and `len(p)` is
its length in bytes. -/
def stdErrorWriter.Write (lib : Lib) (cfg : Config) (env : Env) (st : State) (p : String) :
    State × Outcome × Option (Nat × Option String) :=
  let r := logfSkipframes lib cfg env st 2 levelError "%s" [Arg.bytes p]
  match r.2 with
  | Outcome.returned => (r.1, Outcome.returned, some (p.utf8ByteSize, none))
  | o => (r.1, o, none)

/-! ## Initialization -/

/-- The values the variable `output` takes: `os.Stderr`, `os.Stdout`, or a
writer installed by `SetOutputForTests`. -/
inductive Writer
  | osStderr
  | osStdout
  | forTests (id : Nat)
  deriving DecidableEq

/-- The function `setLoggerOutput` on the value of the flag `loggerOutput`: the
value of `output` afterwards and how the call ends; the panic carries the
error built by `fmt.Errorf`. -/
def setLoggerOutput (isPrintWide : Char → Bool) (loggerOutput : String) (output : Writer) :
    Writer × Outcome :=
  if loggerOutput = "stderr" then (Writer.osStderr, Outcome.returned)
  else if loggerOutput = "stdout" then (Writer.osStdout, Outcome.returned)
  else
    (output, Outcome.panicked ("FATAL: unsupported `loggerOutput` value: " ++
      Quote isPrintWide loggerOutput ++ "; supported values are: stderr, stdout"))

/-- The function `validateLoggerFormat` on the value of the flag
`loggerFormat`; the panic carries the error built by `fmt.Errorf`. -/
def validateLoggerFormat (isPrintWide : Char → Bool) (loggerFormat : String) : Outcome :=
  if loggerFormat = "default" ∨ loggerFormat = "json" then Outcome.returned
  else
    Outcome.panicked ("FATAL: unsupported `-loggerFormat` value: " ++
      Quote isPrintWide loggerFormat ++ "; supported values are: default, json")

/-! ## JSON strings (RFC 8259, section 7) -/

/-- Value of a hexadecimal digit, in either case. -/
def hexValue (c : Char) : Option Nat :=
  if '0'.toNat ≤ c.toNat ∧ c.toNat ≤ '9'.toNat then some (c.toNat - '0'.toNat)
  else if 'a'.toNat ≤ c.toNat ∧ c.toNat ≤ 'f'.toNat then some (c.toNat - 'a'.toNat + 10)
  else if 'A'.toNat ≤ c.toNat ∧ c.toNat ≤ 'F'.toNat then some (c.toNat - 'A'.toNat + 10)
  else none

/-- Value of four hexadecimal digits. -/
def hexValue4 (a b c d : Char) : Option Nat :=
  match hexValue a, hexValue b, hexValue c, hexValue d with
  | some x, some y, some z, some w => some (((x * 16 + y) * 16 + z) * 16 + w)
  | _, _, _, _ => none

/-- The character a JSON escape of one letter stands for: the legal letters
after a backslash are the double quote, the backslash, the slash and
`b`, `f`, `n`, `r`, `t` (and `u`, handled apart). -/
def jsonSimpleEscape (e : Char) : Option Char :=
  if e = '"' then some '"'
  else if e = '\\' then some '\\'
  else if e = '/' then some '/'
  else if e = 'b' then some (Char.ofNat 8)
  else if e = 'f' then some (Char.ofNat 12)
  else if e = 'n' then some '\n'
  else if e = 'r' then some '\r'
  else if e = 't' then some '\t'
  else none

/-- The second half of a surrogate pair: after a `\u` escape with the value
`hi` of a high surrogate the text must go on with a `\u` escape of a low
surrogate; the pair stands for one code point. -/
def jsonLowSurrogate (hi : Nat) : List Char → Option (Char × List Char)
  | b1 :: u1 :: a :: b :: c :: d :: rest =>
    if b1 = '\\' ∧ u1 = 'u' then
      match hexValue4 a b c d with
      | none => none
      | some lo =>
        if 0xDC00 ≤ lo ∧ lo ≤ 0xDFFF then
          some (Char.ofNat (0x10000 + (hi - 0xD800) * 0x400 + (lo - 0xDC00)), rest)
        else none
    else none
  | _ => none

/-- The text after `\u`: four hexadecimal digits, giving a code point, or a
surrogate pair written as two such escapes. -/
def jsonUnicodeEscape : List Char → Option (Char × List Char)
  | a :: b :: c :: d :: rest =>
    match hexValue4 a b c d with
    | none => none
    | some n =>
      if 0xD800 ≤ n ∧ n ≤ 0xDBFF then jsonLowSurrogate n rest
      else if 0xDC00 ≤ n ∧ n ≤ 0xDFFF then none
      else some (Char.ofNat n, rest)
  | _ => none

/-- One character of the inside of a JSON string, decoded, and the text after
it: an escape, or an unescaped character, which is any character from U+0020 on
other than the quote and the backslash; `none` when the text starts with
neither. -/
def jsonNext : List Char → Option (Char × List Char)
  | [] => none
  | c :: rest =>
    if c = '\\' then
      match rest with
      | [] => none
      | e :: rest1 =>
        if e = 'u' then jsonUnicodeEscape rest1
        else (jsonSimpleEscape e).map (fun x => (x, rest1))
    else if c = '"' ∨ c.toNat < 0x20 then none
    else some (c, rest)

/-- Decoder of a JSON string from the character after its opening quote up to
its closing quote, which must be the last character; `none` when the text is
not a JSON string. Every step consumes at least one character of the text, and
`fuel` bounds the number of steps. -/
def jsonStringBody : Nat → List Char → Option (List Char)
  | 0, _ => none
  | fuel + 1, text =>
    match text with
    | [] => none
    | c :: rest =>
      if c = '"' then (if rest.isEmpty then some [] else none)
      else
        match jsonNext (c :: rest) with
        | none => none
        | some r => (jsonStringBody fuel r.2).map (fun t => r.1 :: t)

/-- Decoder of a JSON string given with its two quotes; the length of the text
is fuel enough. -/
def jsonDecodeString (s : String) : Option String :=
  match s.data with
  | [] => none
  | c :: body => if c = '"' then (jsonStringBody body.length body).map String.mk else none

/-- The characters that `strconv.Quote` renders in a way a JSON decoder reads
back: the quote and the backslash, the printable characters, the five control
characters with a common short escape (`\b`, `\t`, `\n`, `\f`, `\r`) and the
non-printable characters from U+0080 to U+FFFF (rendered as `\u` and four
digits). -/
def jsonSafe (isPrintWide : Char → Bool) (c : Char) : Bool :=
  decide (c = '"') || decide (c = '\\') || IsPrint isPrintWide c ||
    decide (c.toNat = 0x08 ∨ c.toNat = 0x09 ∨ c.toNat = 0x0A ∨ c.toNat = 0x0C ∨ c.toNat = 0x0D) ||
    decide (0x80 ≤ c.toNat ∧ c.toNat < 0x10000)

/-! ## Auxiliary notions for the statements -/

/-- State of location `X` after `j` calls under limit `L`: absent before the
first call, then the number of calls capped at `L + 1`. -/
def countedAs (L : Nat) (X : String) (ll : logLimiter) (j : Nat) : Prop :=
  (j = 0 ∧ ll.m X = none) ∨ (0 < j ∧ ll.m X = some (min j (L + 1)))

/-- The rate-limiting step of `logMessage` (lines 210 to 223) on its own: the
limiter after the step, whether the message is suppressed, and the text put in
front of the message. -/
def rateLimitStep (cfg : Config) (ll : logLimiter) (level : logLevel) (location : String) :
    logLimiter × Bool × String :=
  if level = levelWarn then ll.needSuppress (toUint64 cfg.warnsPerSecondLimit) location
  else if level = levelError then ll.needSuppress (toUint64 cfg.errorsPerSecondLimit) location
  else (ll, false, "")

/-- A string needs no escaping when `strconv.Quote` copies each of its
characters: none is a double quote or a backslash and all are printable. -/
def needsNoEscape (isPrintWide : Char → Bool) (s : String) : Bool :=
  s.data.all (fun c => decide (c ≠ '"') && decide (c ≠ '\\') && IsPrint isPrintWide c)

/-- A sample of the library parameters: nothing above U+00FF counts as
printable, and formats outside the fragment are left as they are. -/
def sampleLib : Lib :=
  { isPrintWide := fun _ => false, sprintfOther := fun format _ => format }

/-- A sample call environment: a fixed time stamp and a caller in
`app/main.go`, line 42, of a checkout under `/home/u/VictoriaMetrics`. -/
def sampleEnv : Env :=
  { now := "2024-01-02T03:04:05.000+0000",
    caller := fun _ => { file := "/home/u/VictoriaMetrics/app/main.go", line := 42, ok := true } }

/-- The configuration of the flag defaults (format `default`, time stamps on,
no rate limits), with minimum level INFO and a version label. -/
def defaultConfig : Config :=
  { loggerFormat := "default", disableTimestamps := false, errorsPerSecondLimit := 0,
    warnsPerSecondLimit := 0, minLogLevel := levelInfo, version := "v1.0.0" }

/-- A state with a fresh limiter, nothing written and no counter incremented. -/
def freshState : State :=
  { limiter := newLogLimiter, output := [], counters := [] }

/-- The default configuration with both rate limits set to 1. -/
def limitOneConfig : Config :=
  { defaultConfig with
    errorsPerSecondLimit := 1
    warnsPerSecondLimit := 1 }

/-- A state whose limiter has counted 7 calls for `app/main.go:42`. -/
def countedState : State :=
  { freshState with limiter := newLogLimiter.store "app/main.go:42" 7 }

/-- The default configuration with the WARN limit set to 2. -/
def warnTwoConfig : Config :=
  { defaultConfig with warnsPerSecondLimit := 2 }

/-- The default configuration in the `json` format without time stamps. -/
def jsonConfig : Config :=
  { defaultConfig with
    loggerFormat := "json"
    disableTimestamps := true }

/-- The count of a location in the limiter, an absent entry counting as 0. -/
def countOf (ll : logLimiter) (X : String) : Nat :=
  (ll.m X).getD 0

/-- A limiter whose count for `X` is the largest `uint64`. -/
def fullLimiter : logLimiter :=
  newLogLimiter.store "X" 18446744073709551615

/-- State of location `X` after `j` calls when the stored count is followed
through its wrap-around: absent before the first call, then `j` modulo `2 ^ 64`. -/
def wrapCounted (X : String) (ll : logLimiter) (j : Nat) : Prop :=
  (j = 0 ∧ ll.m X = none) ∨ (0 < j ∧ ll.m X = some (j % uint64Size))

end Logger

/-! # `lib/bytesutil/internstring.go` -/

namespace Bytesutil

/-- The struct `ismEntry`. -/
structure ismEntry where
  lastAccessTime : Nat
  s : String
  deriving DecidableEq

/-- The package variables `internStringsMap`, a `sync.Map` from strings to
entries given as a lookup function (`none` for an absent key), and
`internStringsMapLastCleanupTime`. -/
structure InternState where
  internStringsMap : String → Option ismEntry
  internStringsMapLastCleanupTime : Nat

/-- What a call of `InternString` reads from its surroundings: `ct` is the
value of `fasttime.UnixTimestamp()`, a `uint64`; `internStringMaxLen` the value
of the flag, a Go `int`; and `needCleanup lct ct` stands for the function
`needCleanup`, which is declared outside the files at hand: the boolean it
returns and the value it leaves in the variable whose address it is given. -/
structure InternEnv where
  ct : Nat
  internStringMaxLen : Int
  needCleanup : Nat → Nat → Bool × Nat

/-- The call `internStringsMap.Store(k, e)`. -/
def storeEntry (m : String → Option ismEntry) (k : String) (e : ismEntry) :
    String → Option ismEntry :=
  fun j => if j = k then some e else m j

/-- The cleanup pass of lines 50 to 58: `Range` over the map deleting every
entry whose `lastAccessTime + 5*60`, computed in `uint64`, is below `ct`. -/
def cleanup (m : String → Option ismEntry) (ct : Nat) : String → Option ismEntry :=
  fun j =>
    match m j with
    | some e => if (e.lastAccessTime + 5 * 60) % Logger.uint64Size < ct then none else some e
    | none => none

/-- The function `InternString`: the state afterwards and the string returned.
The copy made by `strings.Clone` has the content of `s`, and `len` counts
bytes. -/
def InternString (env : InternEnv) (st : InternState) (s : String) : InternState × String :=
  match st.internStringsMap s with
  | some e =>
    if (e.lastAccessTime + 10) % Logger.uint64Size < env.ct then
      ({ st with internStringsMap :=
          storeEntry st.internStringsMap s { e with lastAccessTime := env.ct } }, e.s)
    else (st, e.s)
  | none =>
    let sCopy := s
    if (sCopy.utf8ByteSize : Int) > env.internStringMaxLen then (st, sCopy)
    else
      let m := storeEntry st.internStringsMap sCopy { lastAccessTime := env.ct, s := sCopy }
      let r := env.needCleanup st.internStringsMapLastCleanupTime env.ct
      if r.1 then
        ({ internStringsMap := cleanup m env.ct, internStringsMapLastCleanupTime := r.2 }, sCopy)
      else
        ({ internStringsMap := m, internStringsMapLastCleanupTime := r.2 }, sCopy)

/-- The invariant of the cache: the string stored in an entry is the key the
entry is stored under. -/
def keysMatch (m : String → Option ismEntry) : Prop :=
  ∀ k e, m k = some e → e.s = k

/-- A sample environment: time 1000, the default maximum length 300 and a
`needCleanup` that asks for a cleanup when the last one is more than 61 seconds
old. -/
def sampleInternEnv : InternEnv :=
  { ct := 1000,
    internStringMaxLen := 300,
    needCleanup := fun lct ct => if lct + 61 < ct then (true, ct) else (false, lct) }

/-- A sample state: one entry, for `up`, last used at time 100. -/
def sampleInternState : InternState :=
  { internStringsMap := storeEntry (fun _ => none) "up" { lastAccessTime := 100, s := "up" },
    internStringsMapLastCleanupTime := 0 }

/-- The sample environment at the last second a `uint64` can hold. -/
def lateInternEnv : InternEnv :=
  { ct := 18446744073709551615,
    internStringMaxLen := 300,
    needCleanup := fun lct ct => if lct + 61 < ct then (true, ct) else (false, lct) }

end Bytesutil

namespace Logger

open logLevel (levelInfo levelWarn levelError levelFatal levelPanic)

/-! ### Lemmas on the rate limiter -/

theorem store_same (ll : logLimiter) (X : String) (n : Nat) :
    (ll.store X n).m X = some n := by
  simp [logLimiter.store]

theorem store_other (ll : logLimiter) (X Y : String) (n : Nat) (h : Y ≠ X) :
    (ll.store X n).m Y = ll.m Y := by
  simp [logLimiter.store, h]

theorem needSuppress_other (ll : logLimiter) (limit : Nat) (X Y : String) (h : Y ≠ X) :
    (ll.needSuppress limit X).1.m Y = ll.m Y := by
  unfold logLimiter.needSuppress
  split
  · rfl
  · split
    · split
      · split
        · exact store_other _ _ _ _ h
        · rfl
      · exact store_other _ _ _ _ h
    · exact store_other _ _ _ _ h

theorem needSuppress_counted (L : Nat) (X : String) (hL : 0 < L) (hB : L + 1 < uint64Size)
    (ll : logLimiter) (j : Nat) (h : countedAs L X ll j) :
    countedAs L X (ll.needSuppress L X).1 (j + 1) ∧
      (ll.needSuppress L X).2 = expectedReturn L (j + 1) := by
  have hL0 : L ≠ 0 := by omega
  rcases h with ⟨hj, hm⟩ | ⟨hj, hm⟩
  · subst hj
    have h1 : min (0 + 1) (L + 1) = 1 := by omega
    have h2 : expectedReturn L (0 + 1) = (false, "") := by
      unfold expectedReturn
      rw [if_pos (by omega)]
    simp only [logLimiter.needSuppress, hL0, hm, if_false, h2, and_true]
    right
    exact ⟨by omega, by rw [store_same, h1]⟩
  · by_cases c1 : j < L
    · have h1 : min j (L + 1) = j := by omega
      have h3 : min (j + 1) (L + 1) = j + 1 := by omega
      have h2 : expectedReturn L (j + 1) = (false, "") := by
        unfold expectedReturn
        rw [if_pos (by omega)]
      have h4 : (j + 1) % uint64Size = j + 1 := Nat.mod_eq_of_lt (by omega)
      have h5 : ¬ j ≥ L := by omega
      rw [h1] at hm
      simp only [logLimiter.needSuppress, hL0, hm, if_false, h5, h2, h4, and_true]
      right
      exact ⟨by omega, by rw [store_same, h3]⟩
    · by_cases c2 : j = L
      · subst c2
        have h1 : min j (j + 1) = j := by omega
        have h3 : min (j + 1) (j + 1) = j + 1 := by omega
        have h2 : expectedReturn j (j + 1) = (false, suppressText j) := by
          unfold expectedReturn
          rw [if_neg (by omega), if_pos rfl]
          rfl
        have h4 : (j + 1) % uint64Size = j + 1 := Nat.mod_eq_of_lt (by omega)
        rw [h1] at hm
        simp only [logLimiter.needSuppress, hL0, hm, if_false, ge_iff_le, le_refl, if_true, h2,
          h4, and_true]
        right
        exact ⟨by omega, by rw [store_same, h3]⟩
      · have h1 : min j (L + 1) = L + 1 := by omega
        have h3 : min (j + 1) (L + 1) = L + 1 := by omega
        have h2 : expectedReturn L (j + 1) = (true, "") := by
          unfold expectedReturn
          rw [if_neg (by omega), if_neg (by omega)]
        have h5 : L + 1 ≥ L := by omega
        have h6 : ¬ L + 1 = L := by omega
        rw [h1] at hm
        simp only [logLimiter.needSuppress, hL0, hm, if_false, h5, if_true, h6, h2, and_true]
        right
        exact ⟨by omega, by rw [hm, h3]⟩

theorem needSuppress_counted_other (L : Nat) (X : String) (ll : logLimiter) (j : Nat)
    (h : countedAs L X ll j) (limit : Nat) (Y : String) (hY : Y ≠ X) :
    countedAs L X (ll.needSuppress limit Y).1 j := by
  have e := needSuppress_other ll limit Y X (fun e => hY e.symm)
  unfold countedAs at *
  rw [e]
  exact h

theorem runCalls_counted (L : Nat) (X : String) (hL : 0 < L) (hB : L + 1 < uint64Size)
    (pre : List (Nat × String)) :
    ∀ (ll : logLimiter) (j : Nat), countedAs L X ll j →
      (∀ c ∈ pre, c.2 = X → c.1 = L) →
      countedAs L X (runCalls ll pre) (j + callsFor X pre) := by
  induction pre with
  | nil =>
    intro ll j h _
    simpa [runCalls, callsFor] using h
  | cons c cs ih =>
    intro ll j h hpre
    have hcs : ∀ c ∈ cs, c.2 = X → c.1 = L := fun d hd => hpre d (List.mem_cons_of_mem _ hd)
    by_cases hc : c.2 = X
    · have hl : c.1 = L := hpre c (List.mem_cons_self _ _) hc
      have step := (needSuppress_counted L X hL hB ll j h).1
      have := ih (ll.needSuppress c.1 c.2).1 (j + 1) (by rw [hl, hc]; exact step) hcs
      have e : j + callsFor X (c :: cs) = j + 1 + callsFor X cs := by
        simp [callsFor, List.filter_cons, hc]
        omega
      rw [e]
      exact this
    · have step := needSuppress_counted_other L X ll j h c.1 c.2 hc
      have := ih (ll.needSuppress c.1 c.2).1 j step hcs
      have e : j + callsFor X (c :: cs) = j + callsFor X cs := by
        simp [callsFor, List.filter_cons, hc]
      rw [e]
      exact this

theorem callsFor_replicate (X : String) (L : Nat) (i : Nat) :
    callsFor X (List.replicate i (L, X)) = i := by
  induction i with
  | zero => rfl
  | succ i ih =>
    have e : List.replicate (i + 1) (L, X) = (L, X) :: List.replicate i (L, X) := rfl
    unfold callsFor at *
    rw [e, List.filter_cons_of_pos (by simp), List.length_cons, ih]

theorem needSuppress_wrapCounted (L : Nat) (X : String) (hL : 0 < L) (hB : L < uint64Size)
    (ll : logLimiter) (j : Nat) (hj : j ≤ L) (h : wrapCounted X ll j) :
    wrapCounted X (ll.needSuppress L X).1 (j + 1) := by
  have hL0 : L ≠ 0 := by omega
  have hU : 1 < uint64Size := by unfold uint64Size; norm_num
  rcases h with ⟨h0, hm⟩ | ⟨h0, hm⟩
  · subst h0
    right
    refine ⟨by omega, ?_⟩
    simp only [logLimiter.needSuppress, hL0, hm, if_false]
    rw [store_same, Nat.mod_eq_of_lt hU]
  · have h1 : j % uint64Size = j := Nat.mod_eq_of_lt (by omega)
    rw [h1] at hm
    right
    refine ⟨by omega, ?_⟩
    by_cases c : j = L
    · subst c
      simp only [logLimiter.needSuppress, hL0, hm, if_false, ge_iff_le, le_refl, if_true]
      rw [store_same]
    · have h5 : ¬ j ≥ L := by omega
      simp only [logLimiter.needSuppress, hL0, hm, if_false, h5]
      rw [store_same]

theorem runCalls_replicate_wrapCounted (L : Nat) (X : String) (hL : 0 < L)
    (hB : L < uint64Size) (i : Nat) :
    ∀ (ll : logLimiter) (j : Nat), j + i ≤ L + 1 → wrapCounted X ll j →
      wrapCounted X (runCalls ll (List.replicate i (L, X))) (j + i) := by
  induction i with
  | zero =>
    intro ll j _ h
    exact h
  | succ i ih =>
    intro ll j hji h
    have e : List.replicate (i + 1) (L, X) = (L, X) :: List.replicate i (L, X) := rfl
    rw [e]
    have step := needSuppress_wrapCounted L X hL hB ll j (by omega) h
    have := ih (ll.needSuppress L X).1 (j + 1) (by omega) step
    have e2 : j + (i + 1) = j + 1 + i := by omega
    rw [e2]
    exact this

/-! ### Lemmas on `logMessage` -/

theorem emit_eq (lib : Lib) (cfg : Config) (env : Env) (st : State) (level : logLevel)
    (location msg : String) :
    emit lib cfg env st level location msg =
      ({ limiter := st.limiter,
         output := st.output ++
           [formatLine lib.isPrintWide cfg (timestampOf cfg env) level location (trimNewlines msg)],
         counters := st.counters ++ [counterName lib.isPrintWide cfg level location] },
       terminalAction cfg level (trimNewlines msg)) := rfl

theorem needSuppress_text (ll : logLimiter) (limit : Nat) (location : String) :
    (ll.needSuppress limit location).2.2 = "" ∨
      (ll.needSuppress limit location).2.2 = suppressText limit := by
  unfold logLimiter.needSuppress
  split
  · exact Or.inl rfl
  · split
    · split
      · split
        · exact Or.inr rfl
        · exact Or.inl rfl
      · exact Or.inl rfl
    · exact Or.inl rfl

theorem rateLimitStep_text (cfg : Config) (ll : logLimiter) (level : logLevel)
    (location : String) :
    (rateLimitStep cfg ll level location).2.2 = "" ∨
      ∃ limit, (rateLimitStep cfg ll level location).2.2 = suppressText limit := by
  unfold rateLimitStep
  split
  · rcases needSuppress_text ll (toUint64 cfg.warnsPerSecondLimit) location with h | h
    · exact Or.inl h
    · exact Or.inr ⟨_, h⟩
  · split
    · rcases needSuppress_text ll (toUint64 cfg.errorsPerSecondLimit) location with h | h
      · exact Or.inl h
      · exact Or.inr ⟨_, h⟩
    · exact Or.inl rfl

theorem string_length_pos_append (p msg : String) :
    (if p.length > 0 then p ++ msg else msg) = p ++ msg := by
  split
  · rfl
  · rename_i h
    have h0 : p.data = [] := by
      have : p.data.length = 0 := by
        have := h
        simp only [String.length] at this
        omega
      exact List.length_eq_zero.mp this
    apply String.ext
    rw [String.data_append, h0, List.nil_append]

/-- The function `logMessage` split into its rate-limiting step and the rest. -/
theorem logMessage_eq (lib : Lib) (cfg : Config) (env : Env) (st : State) (skipframes : Int)
    (level : logLevel) (msg : String) :
    logMessage lib cfg env st skipframes level msg =
      (if (rateLimitStep cfg st.limiter level (callerLocation env skipframes)).2.1 = true then
        ({ st with
            limiter := (rateLimitStep cfg st.limiter level (callerLocation env skipframes)).1 },
          Outcome.returned)
      else
        emit lib cfg env
          { st with
            limiter := (rateLimitStep cfg st.limiter level (callerLocation env skipframes)).1 }
          level (callerLocation env skipframes)
          ((rateLimitStep cfg st.limiter level (callerLocation env skipframes)).2.2 ++ msg)) := by
  cases level <;>
    simp only [logMessage, rateLimitStep, string_length_pos_append, reduceCtorEq, or_self,
      or_true, true_or, if_true, if_false, Bool.false_eq_true, String.empty_append]

/-! ### Lemmas on trimming and quoting -/

theorem trimLoop_decomp (fuel : Nat) :
    ∀ msg : List Char, ∃ k, msg = trimLoop fuel msg ++ List.replicate k '\n' := by
  induction fuel with
  | zero =>
    intro msg
    exact ⟨0, by simp [trimLoop]⟩
  | succ fuel ih =>
    intro msg
    unfold trimLoop
    split
    · rename_i h
      obtain ⟨k, hk⟩ := ih msg.dropLast
      refine ⟨k + 1, ?_⟩
      have e : msg = msg.dropLast ++ ['\n'] :=
        (List.dropLast_append_getLast? '\n' (by rw [h.2]; rfl)).symm
      rw [List.replicate_succ', ← List.append_assoc, ← hk]
      exact e
    · exact ⟨0, by simp⟩

theorem trimLoop_last (fuel : Nat) :
    ∀ msg : List Char, msg.length ≤ fuel → (trimLoop fuel msg).getLast? ≠ some '\n' := by
  induction fuel with
  | zero =>
    intro msg h
    have : msg = [] := List.length_eq_zero.mp (by omega)
    subst this
    simp [trimLoop]
  | succ fuel ih =>
    intro msg h
    unfold trimLoop
    split
    · apply ih
      rw [List.length_dropLast]
      omega
    · rename_i hc
      intro hl
      apply hc
      refine ⟨?_, hl⟩
      cases msg with
      | nil => simp at hl
      | cons a l => simp

theorem trimLoop_unique (t : List Char) (ht : t.getLast? ≠ some '\n') (k : Nat) :
    ∀ fuel : Nat, k ≤ fuel → trimLoop fuel (t ++ List.replicate k '\n') = t := by
  induction k with
  | zero =>
    intro fuel _
    rw [List.replicate_zero, List.append_nil]
    cases fuel with
    | zero => rfl
    | succ f =>
      unfold trimLoop
      rw [if_neg]
      intro h
      exact ht h.2
  | succ k ih =>
    intro fuel hf
    cases fuel with
    | zero => omega
    | succ f =>
      unfold trimLoop
      have e : t ++ List.replicate (k + 1) '\n' = (t ++ List.replicate k '\n') ++ ['\n'] := by
        rw [List.replicate_succ', List.append_assoc]
      rw [e, if_pos, List.dropLast_concat]
      · exact ih f (by omega)
      · refine ⟨by simp, by simp⟩

/-- Trimming removes a maximal run of trailing newlines: the message is the
trimmed message followed by newlines only, and the trimmed message does not end
in a newline. -/
theorem trimNewlines_spec (msg : String) :
    (∃ k, msg.data = (trimNewlines msg).data ++ List.replicate k '\n') ∧
      (trimNewlines msg).data.getLast? ≠ some '\n' := by
  unfold trimNewlines
  exact ⟨trimLoop_decomp _ _, trimLoop_last _ _ (Nat.le_refl _)⟩

theorem trimNewlines_unique (t : String) (k : Nat) (ht : t.data.getLast? ≠ some '\n') :
    trimNewlines (String.mk (t.data ++ List.replicate k '\n')) = t := by
  unfold trimNewlines
  apply String.ext
  show trimLoop (t.data ++ List.replicate k '\n').length (t.data ++ List.replicate k '\n') = t.data
  apply trimLoop_unique t.data ht k
  rw [List.length_append, List.length_replicate]
  omega

theorem trimNewlines_append (p msg : String)
    (hp : p.data = [] ∨ ∃ c, p.data.getLast? = some c ∧ c ≠ '\n') :
    trimNewlines (p ++ msg) = p ++ trimNewlines msg := by
  obtain ⟨⟨k, hk⟩, hl⟩ := trimNewlines_spec msg
  have e : p ++ msg = String.mk ((p ++ trimNewlines msg).data ++ List.replicate k '\n') := by
    apply String.ext
    rw [String.data_append, String.data_append, List.append_assoc, ← hk]
  rw [e]
  apply trimNewlines_unique
  rw [String.data_append]
  intro h
  rw [List.getLast?_append] at h
  cases hT : (trimNewlines msg).data.getLast? with
  | some d =>
    rw [hT] at h hl
    simp only [Option.or] at h
    exact hl h
  | none =>
    rw [hT] at h
    simp only [Option.or] at h
    rcases hp with hp | ⟨c, hc, hn⟩
    · rw [hp] at h
      simp at h
    · rw [hc] at h
      exact hn (Option.some.inj h)

theorem suppressText_last (limit : Nat) :
    (suppressText limit).data.getLast? = some ' ' := by
  unfold suppressText
  rw [String.data_append]
  show (_ ++ [':', ' ']).getLast? = some ' '
  rw [List.getLast?_append]
  rfl

theorem quote_data (isPrintWide : Char → Bool) (s : String) :
    (Quote isPrintWide s).data =
      '"' :: (s.data.flatMap (appendEscapedRune isPrintWide) ++ ['"']) := rfl

theorem flatMap_noEscape (isPrintWide : Char → Bool) (l : List Char)
    (h : ∀ c ∈ l, c ≠ '"' ∧ c ≠ '\\' ∧ IsPrint isPrintWide c = true) :
    l.flatMap (appendEscapedRune isPrintWide) = l := by
  induction l with
  | nil => rfl
  | cons a l ih =>
    have ha := h a (List.mem_cons_self _ _)
    have e : appendEscapedRune isPrintWide a = [a] := by
      unfold appendEscapedRune
      rw [if_neg (by simp [ha.1, ha.2.1]), if_pos ha.2.2]
    rw [List.flatMap_cons, e, ih (fun c hc => h c (List.mem_cons_of_mem _ hc))]
    rfl

theorem quote_noEscape (isPrintWide : Char → Bool) (s : String)
    (h : needsNoEscape isPrintWide s = true) :
    Quote isPrintWide s = "\"" ++ s ++ "\"" := by
  have h' : ∀ c ∈ s.data, c ≠ '"' ∧ c ≠ '\\' ∧ IsPrint isPrintWide c = true := by
    intro c hc
    have := List.all_eq_true.mp h c hc
    simpa only [Bool.and_eq_true, decide_eq_true_eq, and_assoc] using this
  apply String.ext
  rw [quote_data, flatMap_noEscape isPrintWide s.data h', String.data_append, String.data_append]
  rfl

theorem quote_fieldTs (isPrintWide : Char → Bool) : Quote isPrintWide fieldTs = "\"ts\"" := rfl

theorem quote_fieldLevel (isPrintWide : Char → Bool) :
    Quote isPrintWide fieldLevel = "\"level\"" := rfl

theorem quote_fieldCaller (isPrintWide : Char → Bool) :
    Quote isPrintWide fieldCaller = "\"caller\"" := rfl

theorem quote_fieldMsg (isPrintWide : Char → Bool) : Quote isPrintWide fieldMsg = "\"msg\"" := rfl

theorem quote_level (isPrintWide : Char → Bool) (level : logLevel) :
    Quote isPrintWide level.String = "\"" ++ level.String ++ "\"" := by
  cases level <;> rfl

theorem ends_after_tab (pre M : List Char) (h : M.getLast? ≠ some '\n') :
    ∃ body c, pre ++ ('\t' :: (M ++ ['\n'])) = body ++ [c, '\n'] ∧ c ≠ '\n' := by
  rcases List.eq_nil_or_concat M with e | ⟨L, b, e⟩
  · subst e
    exact ⟨pre, '\t', rfl, by decide⟩
  · subst e
    refine ⟨pre ++ ('\t' :: L), b, by simp, ?_⟩
    intro hb
    apply h
    rw [hb]
    simp

theorem ends_after_brace (X : String) :
    ∃ body c, (X ++ "\x7d" ++ "\n").data = body ++ [c, '\n'] ∧ c ≠ '\n' := by
  refine ⟨X.data, '\x7d', ?_, by decide⟩
  rw [String.data_append, String.data_append, List.append_assoc]
  rfl

theorem formatLine_ends (isPrintWide : Char → Bool) (cfg : Config) (timestamp : String)
    (level : logLevel) (location M : String) (h : M.data.getLast? ≠ some '\n') :
    ∃ body c, (formatLine isPrintWide cfg timestamp level location M).data = body ++ [c, '\n'] ∧
      c ≠ '\n' := by
  unfold formatLine
  split
  · split
    · exact ends_after_brace _
    · exact ends_after_brace _
  · split
    · have := ends_after_tab ((level.String ++ "\t" ++ location).data) M.data h
      simpa only [String.data_append, List.append_assoc] using this
    · have := ends_after_tab ((timestamp ++ "\t" ++ level.String ++ "\t" ++ location).data)
        M.data h
      simpa only [String.data_append, List.append_assoc] using this

theorem formatLine_json_plain (isPrintWide : Char → Bool) (cfg : Config) (timestamp : String)
    (level : logLevel) (location M : String) (hf : cfg.loggerFormat = "json")
    (ht : cfg.disableTimestamps = true) :
    formatLine isPrintWide cfg timestamp level location M =
      "\x7b\"level\":\"" ++ level.String ++ "\",\"caller\":" ++ Quote isPrintWide location ++
        ",\"msg\":" ++ Quote isPrintWide M ++ "\x7d\n" := by
  unfold formatLine
  rw [if_pos hf, if_pos ht]
  simp only [quote_level, quote_fieldLevel, quote_fieldCaller, quote_fieldMsg]
  apply String.ext
  simp only [String.data_append, List.append_assoc]
  rfl

theorem formatLine_json_ts (isPrintWide : Char → Bool) (cfg : Config) (timestamp : String)
    (level : logLevel) (location M : String) (hf : cfg.loggerFormat = "json")
    (ht : cfg.disableTimestamps = false) :
    formatLine isPrintWide cfg timestamp level location M =
      "\x7b\"ts\":" ++ Quote isPrintWide timestamp ++ ",\"level\":\"" ++ level.String ++
        "\",\"caller\":" ++ Quote isPrintWide location ++
        ",\"msg\":" ++ Quote isPrintWide M ++ "\x7d\n" := by
  unfold formatLine
  rw [if_pos hf, if_neg (by rw [ht]; decide)]
  simp only [quote_level, quote_fieldTs, quote_fieldLevel, quote_fieldCaller, quote_fieldMsg]
  apply String.ext
  simp only [String.data_append, List.append_assoc]
  rfl

theorem json_plain_noEscape (isPrintWide : Char → Bool) (level : logLevel) (location M : String)
    (hloc : needsNoEscape isPrintWide location = true)
    (hmsg : needsNoEscape isPrintWide M = true) :
    "\x7b\"level\":\"" ++ level.String ++ "\",\"caller\":" ++ Quote isPrintWide location ++
        ",\"msg\":" ++ Quote isPrintWide M ++ "\x7d\n" =
      "\x7b\"level\":\"" ++ level.String ++ "\",\"caller\":\"" ++ location ++
        "\",\"msg\":\"" ++ M ++ "\"\x7d\n" := by
  rw [quote_noEscape _ _ hloc, quote_noEscape _ _ hmsg]
  apply String.ext
  simp only [String.data_append, List.append_assoc]
  rfl

theorem logMessage_not_suppressed (lib : Lib) (cfg : Config) (env : Env) (st : State)
    (skipframes : Int) (level : logLevel) (msg : String)
    (hs : (rateLimitStep cfg st.limiter level (callerLocation env skipframes)).2.1 = false) :
    (logMessage lib cfg env st skipframes level msg).1.output = st.output ++
      [formatLine lib.isPrintWide cfg (timestampOf cfg env) level (callerLocation env skipframes)
        (trimNewlines
          ((rateLimitStep cfg st.limiter level (callerLocation env skipframes)).2.2 ++ msg))] := by
  rw [logMessage_eq, hs]
  simp only [Bool.false_eq_true, if_false, emit_eq]

theorem logMessage_warn_counted (lib : Lib) (cfg : Config) (env : Env) (st : State)
    (skipframes : Int) (msg : String) (L : Nat) (Y : String) (j : Nat)
    (hL : 0 < L) (hB : L + 1 < uint64Size) (hl : toUint64 cfg.warnsPerSecondLimit = L)
    (hY : callerLocation env skipframes = Y) (hc : countedAs L Y st.limiter j) :
    countedAs L Y (logMessage lib cfg env st skipframes levelWarn msg).1.limiter (j + 1) ∧
    (logMessage lib cfg env st skipframes levelWarn msg).1.output =
      (if (expectedReturn L (j + 1)).1 = true then st.output
       else st.output ++ [formatLine lib.isPrintWide cfg (timestampOf cfg env) levelWarn Y
          (trimNewlines ((expectedReturn L (j + 1)).2 ++ msg))]) := by
  obtain ⟨h1, h2⟩ := needSuppress_counted L Y hL hB st.limiter j hc
  have e : rateLimitStep cfg st.limiter levelWarn (callerLocation env skipframes) =
      st.limiter.needSuppress L Y := by
    simp only [rateLimitStep, hl, hY, if_true]
  rw [logMessage_eq, e, hY]
  rw [← h2]
  split
  · exact ⟨h1, rfl⟩
  · rw [emit_eq]
    exact ⟨h1, rfl⟩

theorem warnf_eq_logMessage (lib : Lib) (cfg : Config) (env : Env) (st : State)
    (hg : cfg.minLogLevel.rank ≤ levelWarn.rank) :
    Warnf lib cfg env st "x" [] = logMessage lib cfg env st 4 levelWarn "x" := by
  unfold Warnf logf logfSkipframes
  rw [if_neg (by omega)]
  rfl

theorem trimNewlines_all_newlines (msg : String) (h : ∀ c ∈ msg.data, c = '\n') :
    trimNewlines msg = "" := by
  obtain ⟨⟨k, hk⟩, hl⟩ := trimNewlines_spec msg
  apply String.ext
  show (trimNewlines msg).data = []
  rcases List.eq_nil_or_concat (trimNewlines msg).data with e | ⟨L, b, e⟩
  · exact e
  · exfalso
    apply hl
    have hb : b = '\n' := by
      apply h
      rw [hk, e]
      simp
    rw [e, hb]
    simp

theorem rateLimitStep_trim (cfg : Config) (ll : logLimiter) (level : logLevel)
    (location msg : String) :
    trimNewlines ((rateLimitStep cfg ll level location).2.2 ++ msg) =
      (rateLimitStep cfg ll level location).2.2 ++ trimNewlines msg := by
  apply trimNewlines_append
  rcases rateLimitStep_text cfg ll level location with h | ⟨limit, h⟩
  · left
    rw [h]
  · right
    rw [h]
    exact ⟨' ', suppressText_last limit, by decide⟩

/-! ### Lemmas on `strconv.Quote` and JSON strings -/

theorem hexValue_hexDigit (n : Nat) : hexValue (hexDigit n) = some (n % 16) := by
  have h : ∀ k : Fin 16, hexValue (hexDigit k.val) = some k.val := by decide
  have e : hexDigit n = hexDigit (n % 16) := by
    unfold hexDigit
    rw [Nat.mod_mod]
  rw [e]
  exact h ⟨n % 16, Nat.mod_lt _ (by decide)⟩

theorem hexValue4_digits (n : Nat) (h : n < 0x10000) :
    hexValue4 (hexDigit (n / 2 ^ 12)) (hexDigit (n / 2 ^ 8)) (hexDigit (n / 2 ^ 4)) (hexDigit n)
      = some n := by
  unfold hexValue4
  simp only [hexValue_hexDigit]
  congr 1
  norm_num
  omega

theorem char_eq_of_toNat (c : Char) (n : Nat) (h : c.toNat = n) : c = Char.ofNat n := by
  rw [← h, Char.ofNat_toNat]

theorem isPrint_ge (isPrintWide : Char → Bool) (c : Char) (h : IsPrint isPrintWide c = true) :
    ¬ c.toNat < 0x20 := by
  unfold IsPrint at h
  intro hlt
  rw [if_pos (by omega), if_neg (by omega), if_neg (by omega)] at h
  exact Bool.false_ne_true h

theorem isPrint_ascii (isPrintWide : Char → Bool) (c : Char) (h1 : 0x20 ≤ c.toNat)
    (h2 : c.toNat ≤ 0x7E) : IsPrint isPrintWide c = true := by
  unfold IsPrint
  rw [if_pos (by omega), if_pos ⟨h1, h2⟩]

theorem jsonSafe_iff (f : Char → Bool) (c : Char) :
    jsonSafe f c = true ↔ (c = '"' ∨ c = '\\' ∨ IsPrint f c = true ∨
      (c.toNat = 0x08 ∨ c.toNat = 0x09 ∨ c.toNat = 0x0A ∨ c.toNat = 0x0C ∨ c.toNat = 0x0D) ∨
      (0x80 ≤ c.toNat ∧ c.toNat < 0x10000)) := by
  unfold jsonSafe
  simp only [Bool.or_eq_true, decide_eq_true_eq]
  tauto

theorem jsonStringBody_step (fuel : Nat) (c x : Char) (rest tail : List Char) (hq : c ≠ '"')
    (h : jsonNext (c :: rest) = some (x, tail)) :
    jsonStringBody (fuel + 1) (c :: rest) = (jsonStringBody fuel tail).map (fun t => x :: t) := by
  rw [jsonStringBody]
  simp only [if_neg hq, h]

theorem jsonStringBody_fail (fuel : Nat) (c : Char) (rest : List Char) (hq : c ≠ '"')
    (h : jsonNext (c :: rest) = none) :
    jsonStringBody (fuel + 1) (c :: rest) = none := by
  rw [jsonStringBody]
  simp only [if_neg hq, h]

theorem jsonNext_escape (e : Char) (rest : List Char) (hu : e ≠ 'u') :
    jsonNext ('\\' :: e :: rest) = (jsonSimpleEscape e).map (fun x => (x, rest)) := by
  rw [jsonNext, if_pos rfl]
  simp only [if_neg hu]

theorem jsonNext_unicode (c : Char) (rest : List Char) (h : c.toNat < 0x10000) :
    jsonNext ('\\' :: 'u' :: hexDigit (c.toNat / 2 ^ 12) :: hexDigit (c.toNat / 2 ^ 8) ::
      hexDigit (c.toNat / 2 ^ 4) :: hexDigit c.toNat :: rest) = some (c, rest) := by
  rw [jsonNext, if_pos rfl]
  simp only [if_true]
  rw [jsonUnicodeEscape]
  simp only [hexValue4_digits c.toNat h]
  have hv := c.valid
  have h1 : ¬ (0xD800 ≤ c.toNat ∧ c.toNat ≤ 0xDBFF) := by
    rcases hv with hv | hv
    · have : c.toNat < 0xD800 := hv
      omega
    · have : 0xDFFF < c.toNat := hv.1
      omega
  have h2 : ¬ (0xDC00 ≤ c.toNat ∧ c.toNat ≤ 0xDFFF) := by
    rcases hv with hv | hv
    · have : c.toNat < 0xD800 := hv
      omega
    · have : 0xDFFF < c.toNat := hv.1
      omega
  rw [if_neg h1, if_neg h2, Char.ofNat_toNat]

theorem jsonStringBody_rune (f : Char → Bool) (fuel : Nat) (c : Char) (rest : List Char) :
    jsonStringBody (fuel + 1) (appendEscapedRune f c ++ rest) =
      if jsonSafe f c = true then (jsonStringBody fuel rest).map (fun t => c :: t) else none := by
  by_cases hq : c = '"'
  · subst hq
    rw [if_pos ((jsonSafe_iff _ _).mpr (Or.inl rfl))]
    exact jsonStringBody_step fuel '\\' '"' _ rest (by decide) (jsonNext_escape '"' rest (by decide))
  by_cases hb : c = '\\'
  · subst hb
    rw [if_pos ((jsonSafe_iff _ _).mpr (Or.inr (Or.inl rfl)))]
    exact jsonStringBody_step fuel '\\' '\\' _ rest (by decide)
      (jsonNext_escape '\\' rest (by decide))
  have hqb : ¬ (c = '"' ∨ c = '\\') := by
    rintro (h | h)
    · exact hq h
    · exact hb h
  by_cases hp : IsPrint f c = true
  · have e : appendEscapedRune f c = [c] := by
      unfold appendEscapedRune
      rw [if_neg hqb, if_pos hp]
    rw [e, if_pos ((jsonSafe_iff _ _).mpr (Or.inr (Or.inr (Or.inl hp))))]
    apply jsonStringBody_step fuel c c rest rest hq
    show (if c = '\\' then _ else if c = '"' ∨ c.toNat < 0x20 then none else some (c, rest)) = _
    rw [if_neg hb, if_neg]
    rintro (h | h)
    · exact hq h
    · exact isPrint_ge f c hp h
  have hascii : ¬ (0x20 ≤ c.toNat ∧ c.toNat ≤ 0x7E) := fun h => hp (isPrint_ascii f c h.1 h.2)
  have good : ∀ (n : Nat) (e : Char), c.toNat = n →
      (n = 0x08 ∨ n = 0x09 ∨ n = 0x0A ∨ n = 0x0C ∨ n = 0x0D) → e ≠ 'u' →
      jsonSimpleEscape e = some (Char.ofNat n) →
      jsonStringBody (fuel + 1) ('\\' :: e :: rest) =
        if jsonSafe f c = true then (jsonStringBody fuel rest).map (fun t => c :: t)
        else none := by
    intro n e hn hmem hu he
    rw [if_pos ((jsonSafe_iff _ _).mpr (Or.inr (Or.inr (Or.inr (Or.inl (by omega))))))]
    have hc : c = Char.ofNat n := char_eq_of_toNat c n hn
    rw [hc]
    apply jsonStringBody_step fuel '\\' _ _ rest (by decide)
    rw [jsonNext_escape e rest hu, he]
    rfl
  have bad : ∀ (e : Char) (more : List Char),
      ¬ (c.toNat = 0x08 ∨ c.toNat = 0x09 ∨ c.toNat = 0x0A ∨ c.toNat = 0x0C ∨ c.toNat = 0x0D) →
      ¬ (0x80 ≤ c.toNat ∧ c.toNat < 0x10000) → e ≠ 'u' → jsonSimpleEscape e = none →
      jsonStringBody (fuel + 1) ('\\' :: e :: more) =
        if jsonSafe f c = true then (jsonStringBody fuel rest).map (fun t => c :: t)
        else none := by
    intro e more h1 h2 hu he
    have hs : ¬ jsonSafe f c = true := by
      rw [jsonSafe_iff]
      rintro (h | h | h | h | h)
      · exact hq h
      · exact hb h
      · exact hp h
      · exact h1 h
      · exact h2 h
    rw [if_neg hs]
    apply jsonStringBody_fail fuel '\\' _ (by decide)
    rw [jsonNext_escape e more hu, he]
    rfl
  unfold appendEscapedRune
  rw [if_neg hqb, if_neg hp]
  by_cases h07 : c.toNat = 0x07
  · rw [if_pos h07]
    exact bad 'a' rest (by omega) (by omega) (by decide) rfl
  rw [if_neg h07]
  by_cases h08 : c.toNat = 0x08
  · rw [if_pos h08]
    exact good 0x08 'b' h08 (by omega) (by decide) rfl
  rw [if_neg h08]
  by_cases h0C : c.toNat = 0x0C
  · rw [if_pos h0C]
    exact good 0x0C 'f' h0C (by omega) (by decide) rfl
  rw [if_neg h0C]
  by_cases h0A : c.toNat = 0x0A
  · rw [if_pos h0A]
    exact good 0x0A 'n' h0A (by omega) (by decide) rfl
  rw [if_neg h0A]
  by_cases h0D : c.toNat = 0x0D
  · rw [if_pos h0D]
    exact good 0x0D 'r' h0D (by omega) (by decide) rfl
  rw [if_neg h0D]
  by_cases h09 : c.toNat = 0x09
  · rw [if_pos h09]
    exact good 0x09 't' h09 (by omega) (by decide) rfl
  rw [if_neg h09]
  by_cases h0B : c.toNat = 0x0B
  · rw [if_pos h0B]
    exact bad 'v' rest (by omega) (by omega) (by decide) rfl
  rw [if_neg h0B]
  by_cases hx : c.toNat < 0x20 ∨ c.toNat = 0x7F
  · rw [if_pos hx]
    exact bad 'x' _ (by omega) (by omega) (by decide) rfl
  rw [if_neg hx]
  by_cases hu : c.toNat < 0x10000
  · rw [if_pos hu]
    rw [if_pos ((jsonSafe_iff _ _).mpr (Or.inr (Or.inr (Or.inr (Or.inr (by omega))))))]
    exact jsonStringBody_step fuel '\\' c _ rest (by decide) (jsonNext_unicode c rest hu)
  · rw [if_neg hu]
    exact bad 'U' _ (by omega) (by omega) (by decide) rfl

theorem jsonStringBody_quote (f : Char → Bool) (l : List Char) :
    ∀ fuel : Nat, l.length + 1 ≤ fuel →
      jsonStringBody fuel (l.flatMap (appendEscapedRune f) ++ ['"']) =
        if l.all (jsonSafe f) = true then some l else none := by
  induction l with
  | nil =>
    intro fuel h
    obtain ⟨k, rfl⟩ : ∃ k, fuel = k + 1 := ⟨fuel - 1, by simp at h; omega⟩
    rfl
  | cons a l ih =>
    intro fuel h
    obtain ⟨k, rfl⟩ : ∃ k, fuel = k + 1 := ⟨fuel - 1, by simp at h; omega⟩
    rw [List.flatMap_cons, List.append_assoc, jsonStringBody_rune, List.all_cons]
    rw [ih k (by simp at h; omega)]
    cases jsonSafe f a <;> cases l.all (jsonSafe f) <;> rfl

theorem ite_length_pos (p : Prop) [Decidable p] (a b : List Char) (ha : 1 ≤ a.length)
    (hb : 1 ≤ b.length) : 1 ≤ (if p then a else b).length := by
  split
  · exact ha
  · exact hb

theorem length_le_flatMap (f : Char → Bool) (l : List Char) :
    l.length ≤ (l.flatMap (appendEscapedRune f)).length := by
  induction l with
  | nil => simp
  | cons a l ih =>
    rw [List.flatMap_cons, List.length_append, List.length_cons]
    have : 1 ≤ (appendEscapedRune f a).length := by
      unfold appendEscapedRune
      repeat' apply ite_length_pos
      all_goals exact Nat.succ_le_succ (Nat.zero_le _)
    omega

/-- What a JSON decoder makes of a string rendered by `strconv.Quote`: it reads
back the string when every character is one of those of `jsonSafe`, and it
rejects the text otherwise. -/
theorem jsonDecodeString_quote (f : Char → Bool) (s : String) :
    jsonDecodeString (Quote f s) = if s.data.all (jsonSafe f) = true then some s else none := by
  unfold jsonDecodeString
  rw [quote_data]
  simp only [if_true]
  rw [jsonStringBody_quote f s.data _ (by
    rw [List.length_append, List.length_singleton]
    have := length_le_flatMap f s.data
    omega)]
  split <;> rfl


/-! ### Lemmas for the counter, the initialization and `Write` -/

theorem logMessage_suppressed (lib : Lib) (cfg : Config) (env : Env) (st : State)
    (skipframes : Int) (level : logLevel) (msg : String)
    (hs : (rateLimitStep cfg st.limiter level (callerLocation env skipframes)).2.1 = true) :
    (logMessage lib cfg env st skipframes level msg).1.output = st.output ∧
      (logMessage lib cfg env st skipframes level msg).1.counters = st.counters ∧
      (logMessage lib cfg env st skipframes level msg).2 = Outcome.returned := by
  rw [logMessage_eq, if_pos hs]
  exact ⟨rfl, rfl, rfl⟩

theorem logMessage_counters (lib : Lib) (cfg : Config) (env : Env) (st : State)
    (skipframes : Int) (level : logLevel) (msg : String)
    (hs : (rateLimitStep cfg st.limiter level (callerLocation env skipframes)).2.1 = false) :
    (logMessage lib cfg env st skipframes level msg).1.counters = st.counters ++
      [counterName lib.isPrintWide cfg level (callerLocation env skipframes)] := by
  rw [logMessage_eq, hs]
  simp only [Bool.false_eq_true, if_false, emit_eq]

theorem counterName_eq (isPrintWide : Char → Bool) (cfg : Config) (level : logLevel)
    (location : String) :
    counterName isPrintWide cfg level location =
      "vm_log_messages_total\x7bapp_version=" ++ Quote isPrintWide cfg.version ++ ", level=\"" ++
        level.String ++ "\", location=" ++ Quote isPrintWide location ++ "\x7d" := by
  unfold counterName
  simp only [quote_level]
  apply String.ext
  simp only [String.data_append, List.append_assoc]
  rfl

theorem counterName_noEscape (isPrintWide : Char → Bool) (cfg : Config) (level : logLevel)
    (location : String) (hv : needsNoEscape isPrintWide cfg.version = true)
    (hloc : needsNoEscape isPrintWide location = true) :
    counterName isPrintWide cfg level location =
      "vm_log_messages_total\x7bapp_version=\"" ++ cfg.version ++ "\", level=\"" ++
        level.String ++ "\", location=\"" ++ location ++ "\"\x7d" := by
  rw [counterName_eq, quote_noEscape _ _ hv, quote_noEscape _ _ hloc]
  apply String.ext
  simp only [String.data_append, List.append_assoc]
  rfl

theorem sprintf_bytes (lib : Lib) (p : String) : Sprintf lib "%s" [Arg.bytes p] = p := by
  have e : sprintfCore "%s".data [Arg.bytes p] = some (p.data ++ []) := rfl
  unfold Sprintf
  rw [e]
  apply String.ext
  exact List.append_nil _

theorem logMessage_error_returns (lib : Lib) (cfg : Config) (env : Env) (st : State)
    (skipframes : Int) (msg : String) :
    (logMessage lib cfg env st skipframes levelError msg).2 = Outcome.returned := by
  rw [logMessage_eq]
  split <;> simp only [emit_eq, terminalAction]

theorem logfSkipframes_error_returns (lib : Lib) (cfg : Config) (env : Env) (st : State)
    (skipframes : Int) (format : String) (args : List Arg) :
    (logfSkipframes lib cfg env st skipframes levelError format args).2 = Outcome.returned := by
  unfold logfSkipframes
  split
  · rfl
  · exact logMessage_error_returns _ _ _ _ _ _

theorem write_eq (lib : Lib) (cfg : Config) (env : Env) (st : State) (p : String) :
    stdErrorWriter.Write lib cfg env st p =
      ((logfSkipframes lib cfg env st 2 levelError "%s" [Arg.bytes p]).1, Outcome.returned,
        some (p.utf8ByteSize, none)) := by
  unfold stdErrorWriter.Write
  simp only [logfSkipframes_error_returns]

theorem write_logs (lib : Lib) (cfg : Config) (env : Env) (st : State) (p : String)
    (hg : ¬ levelError.rank < cfg.minLogLevel.rank) :
    (stdErrorWriter.Write lib cfg env st p).1 = (logMessage lib cfg env st 5 levelError p).1 := by
  rw [write_eq]
  unfold logfSkipframes
  rw [if_neg hg]
  simp only [sprintf_bytes]
  rfl

/-! ### Lemmas on `strings.Index` and the caller location -/

theorem indexFrom_spec (sub : List Char) :
    ∀ (l : List Char) (i : Nat),
      (¬ sub <:+: l ∧ indexFrom sub l i = -1) ∨
      (∃ pre post, l = pre ++ sub ++ post ∧ indexFrom sub l i = ((i + pre.length : Nat) : Int) ∧
        ∀ pre' post', l = pre' ++ sub ++ post' → pre.length ≤ pre'.length) := by
  intro l
  induction l with
  | nil =>
    intro i
    unfold indexFrom
    by_cases h : sub = []
    · right
      refine ⟨[], [], by rw [h]; rfl, by rw [if_pos h]; rfl, fun pre' _ _ => Nat.zero_le _⟩
    · left
      refine ⟨fun hin => h (List.infix_nil.mp hin), by rw [if_neg h]⟩
  | cons c cs ih =>
    intro i
    unfold indexFrom
    by_cases h : sub.isPrefixOf (c :: cs) = true
    · right
      obtain ⟨post, hpost⟩ := List.isPrefixOf_iff_prefix.mp h
      refine ⟨[], post, by rw [← hpost]; rfl, by rw [if_pos h]; rfl,
        fun pre' _ _ => Nat.zero_le _⟩
    · rw [if_neg h]
      have hp : ¬ sub <+: c :: cs := fun hp => h (List.isPrefixOf_iff_prefix.mpr hp)
      rcases ih (i + 1) with ⟨hn, he⟩ | ⟨pre, post, hl, he, hmin⟩
      · left
        refine ⟨?_, he⟩
        intro hin
        rcases List.infix_cons_iff.mp hin with h1 | h1
        · exact hp h1
        · exact hn h1
      · right
        refine ⟨c :: pre, post, by rw [hl]; rfl, ?_, ?_⟩
        · rw [he, List.length_cons]
          congr 1
          omega
        · intro pre' post' hl'
          cases pre' with
          | nil =>
            exfalso
            apply hp
            exact ⟨post', by rw [hl']; rfl⟩
          | cons a pre'' =>
            have e : cs = pre'' ++ sub ++ post' := by
              have := List.cons.inj hl'
              rw [List.append_assoc, List.cons_append] at hl'
              rw [List.append_assoc]
              exact (List.cons.inj hl').2
            have := hmin pre'' post' e
            simp only [List.length_cons]
            omega

/-- The file name after the stripping step of lines 204 to 207. -/
theorem strip_not_found (file : String)
    (h : ¬ "/VictoriaMetrics/".data <:+: file.data) :
    (if stringsIndex file "/VictoriaMetrics/" ≥ 0 then
        String.mk (file.data.drop ((stringsIndex file "/VictoriaMetrics/").toNat +
          "/VictoriaMetrics/".length))
      else file) = file := by
  have hi : stringsIndex file "/VictoriaMetrics/" = -1 := by
    unfold stringsIndex
    rcases indexFrom_spec "/VictoriaMetrics/".data file.data 0 with ⟨_, he⟩ | ⟨pre, post, hl, _, _⟩
    · exact he
    · exact absurd ⟨pre, post, hl.symm⟩ h
  rw [hi, if_neg (by decide)]

theorem strip_found (file : String) (pre post : List Char)
    (hl : file.data = pre ++ "/VictoriaMetrics/".data ++ post)
    (hmin : ∀ pre' post', file.data = pre' ++ "/VictoriaMetrics/".data ++ post' →
      pre.length ≤ pre'.length) :
    (if stringsIndex file "/VictoriaMetrics/" ≥ 0 then
        String.mk (file.data.drop ((stringsIndex file "/VictoriaMetrics/").toNat +
          "/VictoriaMetrics/".length))
      else file) = String.mk post := by
  have hi : stringsIndex file "/VictoriaMetrics/" = (pre.length : Int) := by
    unfold stringsIndex
    rcases indexFrom_spec "/VictoriaMetrics/".data file.data 0 with
      ⟨hn, _⟩ | ⟨pre0, post0, hl0, he, hmin0⟩
    · exact absurd ⟨pre, post, hl.symm⟩ hn
    · have h1 := hmin pre0 post0 hl0
      have h2 := hmin0 pre post hl
      rw [he, Nat.zero_add]
      congr 1
      omega
  rw [hi, if_pos (by omega)]
  congr 1
  rw [hl, Int.toNat_ofNat, List.append_assoc, List.drop_append]
  have e : "/VictoriaMetrics/".length = "/VictoriaMetrics/".data.length := rfl
  rw [e, List.drop_left]

theorem callerLocation_ok (env : Env) (skipframes : Int)
    (h : (env.caller skipframes).ok = true) :
    callerLocation env skipframes =
      (if stringsIndex (env.caller skipframes).file "/VictoriaMetrics/" ≥ 0 then
          String.mk ((env.caller skipframes).file.data.drop
            ((stringsIndex (env.caller skipframes).file "/VictoriaMetrics/").toNat +
              "/VictoriaMetrics/".length))
        else (env.caller skipframes).file) ++ ":" ++ toString (env.caller skipframes).line := by
  unfold callerLocation
  simp only [h, if_true]

theorem callerLocation_unknown (env : Env) (skipframes : Int)
    (h : (env.caller skipframes).ok = false) :
    callerLocation env skipframes = "???:0" := by
  unfold callerLocation
  simp only [h, Bool.false_eq_true, if_false]
  decide

theorem needSuppress_store_or_same (ll : logLimiter) (limit : Nat) (X : String) :
    (ll.needSuppress limit X).1 = ll ∨
      ∃ n, (ll.needSuppress limit X).1 = ll.store X n := by
  unfold logLimiter.needSuppress
  split
  · exact Or.inl rfl
  · split
    · split
      · split
        · exact Or.inr ⟨_, rfl⟩
        · exact Or.inl rfl
      · exact Or.inr ⟨_, rfl⟩
    · exact Or.inr ⟨_, rfl⟩

theorem needSuppress_count_step (ll : logLimiter) (limit : Nat) (X : String)
    (hlim : limit < 2 ^ 64)
    (hno : ¬ (limit = 2 ^ 64 - 1 ∧ ll.m X = some (2 ^ 64 - 1))) :
    countOf ll X ≤ countOf (ll.needSuppress limit X).1 X ∧
      countOf (ll.needSuppress limit X).1 X ≤ countOf ll X + 1 := by
  have hU : uint64Size = 2 ^ 64 := rfl
  unfold countOf logLimiter.needSuppress
  split
  · exact ⟨Nat.le_refl _, Nat.le_succ _⟩
  · cases hm : ll.m X with
    | none =>
      simp only [store_same, Option.getD_some, Option.getD_none]
      omega
    | some n =>
      simp only
      split
      · split
        · rename_i h1 h2
          have hn : n + 1 < 2 ^ 64 := by
            by_contra hc
            apply hno
            rw [hm]
            constructor
            · omega
            · congr 1
              omega
          rw [hU, Nat.mod_eq_of_lt hn]
          simp only [store_same, Option.getD_some]
          omega
        · simp only [hm, Option.getD_some]
          omega
      · rename_i h1
        have hn : n + 1 < 2 ^ 64 := by omega
        rw [hU, Nat.mod_eq_of_lt hn]
        simp only [store_same, Option.getD_some]
        omega

/-! ## The claims -/

/-- C1, as amended: for every limit `L` with `0 < L < 2 ^ 64 - 1` and every
location `X`, starting from a limiter in which `X` has no entry and after any
sequence `pre` of `needSuppress` calls without reset whose calls for `X` all
use limit `L` (calls for other locations interleaved freely), the next call
`needSuppress(L, X)`, which is the `k`-th call for `X` with
`k = callsFor X pre + 1`, returns `(false, "")` for `k ≤ L`,
`(false, "suppressing log message with rate limit=<L>: ")` for `k = L + 1` and
`(true, "")` for `k ≥ L + 2`; a fresh limiter and a limiter just reset have no
entry for `X`, so the sequence starts from `k = 1` there. -/
theorem needSuppress_kth_call (L : Nat) (X : String) (hL : 0 < L) (hB : L + 1 < 2 ^ 64)
    (ll : logLimiter) (hX : ll.m X = none) (pre : List (Nat × String))
    (hpre : ∀ c ∈ pre, c.2 = X → c.1 = L) (other : logLimiter) :
    (callsFor X pre + 1 ≤ L →
      ((runCalls ll pre).needSuppress L X).2 = (false, "")) ∧
    (callsFor X pre + 1 = L + 1 →
      ((runCalls ll pre).needSuppress L X).2 =
        (false, "suppressing log message with rate limit=" ++ toString L ++ ": ")) ∧
    (L + 2 ≤ callsFor X pre + 1 →
      ((runCalls ll pre).needSuppress L X).2 = (true, "")) ∧
    newLogLimiter.m X = none ∧ other.reset.m X = none := by
  have inv := runCalls_counted L X hL hB pre ll 0 (Or.inl ⟨rfl, hX⟩) hpre
  rw [Nat.zero_add] at inv
  have key := (needSuppress_counted L X hL hB _ _ inv).2
  rw [key]
  unfold expectedReturn
  refine ⟨?_, ?_, ?_, rfl, rfl⟩
  · intro h
    rw [if_pos h]
  · intro h
    rw [if_neg (by omega), if_pos h]
    rfl
  · intro h
    rw [if_neg (by omega), if_neg (by omega)]

/-- Witness for C1: limit 2, location `a.go:1`, two earlier calls for it with a
call for another location in between; the third call carries the notice. -/
theorem needSuppress_kth_call_witness :
    ((runCalls newLogLimiter [(2, "a.go:1"), (5, "b.go:7"), (2, "a.go:1")]).needSuppress 2
      "a.go:1").2 = (false, "suppressing log message with rate limit=2: ") :=
  (needSuppress_kth_call 2 "a.go:1" (by decide) (by norm_num) newLogLimiter rfl
    [(2, "a.go:1"), (5, "b.go:7"), (2, "a.go:1")] (by decide) newLogLimiter).2.1 (by decide)

/-- C1, counterexample: with the largest `uint64` limit `L = 2 ^ 64 - 1`, after
`L + 1 = 2 ^ 64` calls for `X` on a fresh limiter the stored count has wrapped
to 0, and the next call, number `L + 2`, returns `(false, "")` where the claim
gives `(true, "")`. -/
theorem needSuppress_max_limit_wraps :
    0 < 2 ^ 64 - 1 ∧
    (2 ^ 64 - 1) + 2 ≤ callsFor "X" (List.replicate (2 ^ 64) (2 ^ 64 - 1, "X")) + 1 ∧
    newLogLimiter.m "X" = none ∧
    ((runCalls newLogLimiter (List.replicate (2 ^ 64) (2 ^ 64 - 1, "X"))).needSuppress
      (2 ^ 64 - 1) "X").2 = (false, "") := by
  refine ⟨by norm_num, ?_, rfl, ?_⟩
  · rw [callsFor_replicate]
    norm_num
  · have h := runCalls_replicate_wrapCounted (2 ^ 64 - 1) "X" (by norm_num)
      (by unfold uint64Size; norm_num) (2 ^ 64) newLogLimiter 0 (by norm_num) (Or.inl ⟨rfl, rfl⟩)
    rw [Nat.zero_add] at h
    rcases h with ⟨h0, _⟩ | ⟨_, hm⟩
    · exact absurd h0 (by norm_num)
    · have e : 2 ^ 64 % uint64Size = 0 := by unfold uint64Size; norm_num
      rw [e] at hm
      have hL0 : ¬ (2 ^ 64 - 1 = 0) := by norm_num
      have h5 : ¬ (0 ≥ 2 ^ 64 - 1) := by norm_num
      simp only [logLimiter.needSuppress, hL0, hm, if_false, h5]

/-- C2, as amended: with the WARN limit set to 2, a minimum level that admits
WARN and a location `Y` without an entry in the limiter, four consecutive
`Warnf("x")` calls from `Y` with no reset in between write exactly three
lines: the first two carry the message `x`, the third carries
`suppressing log message with rate limit=2: x`, and the fourth call writes
nothing. -/
theorem warnf_limit_two (lib : Lib) (cfg : Config) (e1 e2 e3 e4 : Env) (st : State)
    (Y : String) (hl : cfg.warnsPerSecondLimit = 2)
    (hg : cfg.minLogLevel.rank ≤ levelWarn.rank) (hY : st.limiter.m Y = none)
    (h1 : callerLocation e1 4 = Y) (h2 : callerLocation e2 4 = Y)
    (h3 : callerLocation e3 4 = Y) (h4 : callerLocation e4 4 = Y) :
    (Warnf lib cfg e3 (Warnf lib cfg e2 (Warnf lib cfg e1 st "x" []).1 "x" []).1 "x" []).1.output
      = st.output ++
        [formatLine lib.isPrintWide cfg (timestampOf cfg e1) levelWarn Y "x",
         formatLine lib.isPrintWide cfg (timestampOf cfg e2) levelWarn Y "x",
         formatLine lib.isPrintWide cfg (timestampOf cfg e3) levelWarn Y
           "suppressing log message with rate limit=2: x"] ∧
    (Warnf lib cfg e4
        (Warnf lib cfg e3 (Warnf lib cfg e2 (Warnf lib cfg e1 st "x" []).1 "x" []).1 "x" []).1
        "x" []).1.output =
      (Warnf lib cfg e3 (Warnf lib cfg e2 (Warnf lib cfg e1 st "x" []).1 "x" []).1 "x"
        []).1.output := by
  have hB : 2 + 1 < uint64Size := by unfold uint64Size; norm_num
  have hu : toUint64 cfg.warnsPerSecondLimit = 2 := by rw [hl]; decide
  have t1 : trimNewlines ((expectedReturn 2 1).2 ++ "x") = "x" := by decide
  have t2 : trimNewlines ((expectedReturn 2 2).2 ++ "x") = "x" := by decide
  have t3 : trimNewlines ((expectedReturn 2 3).2 ++ "x") =
      "suppressing log message with rate limit=2: x" := by decide
  have r1 : (expectedReturn 2 1).1 = false := by decide
  have r2 : (expectedReturn 2 2).1 = false := by decide
  have r3 : (expectedReturn 2 3).1 = false := by decide
  have r4 : (expectedReturn 2 4).1 = true := by decide
  simp only [warnf_eq_logMessage lib cfg _ _ hg]
  obtain ⟨c1, o1⟩ := logMessage_warn_counted lib cfg e1 st 4 "x" 2 Y 0 (by decide) hB hu h1
    (Or.inl ⟨rfl, hY⟩)
  obtain ⟨c2, o2⟩ := logMessage_warn_counted lib cfg e2 _ 4 "x" 2 Y 1 (by decide) hB hu h2 c1
  obtain ⟨c3, o3⟩ := logMessage_warn_counted lib cfg e3 _ 4 "x" 2 Y 2 (by decide) hB hu h3 c2
  obtain ⟨_, o4⟩ := logMessage_warn_counted lib cfg e4 _ 4 "x" 2 Y 3 (by decide) hB hu h4 c3
  simp only [r1, r2, r3, r4, t1, t2, t3, Bool.false_eq_true, if_false, if_true] at o1 o2 o3 o4
  refine ⟨?_, o4⟩
  rw [o3, o2, o1]
  simp

/-- Witness for C2: the four calls in the default format on a fresh state. -/
theorem warnf_limit_two_witness :
    (Warnf sampleLib warnTwoConfig sampleEnv
        (Warnf sampleLib warnTwoConfig sampleEnv
          (Warnf sampleLib warnTwoConfig sampleEnv
            (Warnf sampleLib warnTwoConfig sampleEnv freshState "x" []).1 "x" []).1 "x" []).1
        "x" []).1.output =
      (Warnf sampleLib warnTwoConfig sampleEnv
          (Warnf sampleLib warnTwoConfig sampleEnv
            (Warnf sampleLib warnTwoConfig sampleEnv freshState "x" []).1 "x" []).1 "x"
          []).1.output :=
  (warnf_limit_two sampleLib warnTwoConfig sampleEnv sampleEnv sampleEnv sampleEnv freshState
    "app/main.go:42" rfl (by decide) rfl (by decide) (by decide) (by decide) (by decide)).2

/-- C2, counterexample: with the WARN limit set to 2, three consecutive
`Warnf("x")` calls from one location on a fresh limiter write three lines, not
two: the second line carries the plain message and the third the notice. -/
theorem warnf_limit_two_three_lines :
    (Warnf sampleLib warnTwoConfig sampleEnv
        (Warnf sampleLib warnTwoConfig sampleEnv
          (Warnf sampleLib warnTwoConfig sampleEnv freshState "x" []).1 "x" []).1 "x"
        []).1.output =
      ["2024-01-02T03:04:05.000+0000\tWARN\tapp/main.go:42\tx\n",
       "2024-01-02T03:04:05.000+0000\tWARN\tapp/main.go:42\tx\n",
       "2024-01-02T03:04:05.000+0000\tWARN\tapp/main.go:42\t" ++
         "suppressing log message with rate limit=2: x\n"] := by
  decide

/-- C3: for every limiter state and location, `needSuppress(0, location)`
returns `(false, "")` and leaves the limiter as it is; hence with a configured
WARN (ERROR) limit of 0 a WARN (ERROR) `logMessage` call, whatever the state
of the limiter, leaves the limiter unchanged and writes its line with the
message not prefixed. -/
theorem needSuppress_limit_zero (ll : logLimiter) (location : String) (lib : Lib)
    (cfg : Config) (env : Env) (st : State) (skipframes : Int) (msg : String) :
    ll.needSuppress 0 location = (ll, false, "") ∧
    (cfg.warnsPerSecondLimit = 0 →
      (logMessage lib cfg env st skipframes levelWarn msg).1.limiter = st.limiter ∧
      (logMessage lib cfg env st skipframes levelWarn msg).1.output = st.output ++
        [formatLine lib.isPrintWide cfg (timestampOf cfg env) levelWarn
          (callerLocation env skipframes) (trimNewlines msg)]) ∧
    (cfg.errorsPerSecondLimit = 0 →
      (logMessage lib cfg env st skipframes levelError msg).1.limiter = st.limiter ∧
      (logMessage lib cfg env st skipframes levelError msg).1.output = st.output ++
        [formatLine lib.isPrintWide cfg (timestampOf cfg env) levelError
          (callerLocation env skipframes) (trimNewlines msg)]) := by
  have z : toUint64 0 = 0 := by decide
  refine ⟨rfl, ?_, ?_⟩
  · intro h
    have e : rateLimitStep cfg st.limiter levelWarn (callerLocation env skipframes) =
        (st.limiter, false, "") := by
      simp only [rateLimitStep, h, z, if_true, logLimiter.needSuppress]
    rw [logMessage_eq, e]
    simp only [Bool.false_eq_true, if_false, emit_eq, String.empty_append, and_self]
  · intro h
    have e : rateLimitStep cfg st.limiter levelError (callerLocation env skipframes) =
        (st.limiter, false, "") := by
      simp only [rateLimitStep, h, z, if_true, reduceCtorEq, if_false, logLimiter.needSuppress]
    rw [logMessage_eq, e]
    simp only [Bool.false_eq_true, if_false, emit_eq, String.empty_append, and_self]

/-- Witness for C3: with the default limits (both 0) a WARN message from a
location already counted 7 times is written unchanged. -/
theorem needSuppress_limit_zero_witness :
    (logMessage sampleLib defaultConfig sampleEnv
        countedState 4 levelWarn
        "disk is full\n").1.output =
      ["2024-01-02T03:04:05.000+0000\tWARN\tapp/main.go:42\tdisk is full\n"] :=
  ((needSuppress_limit_zero newLogLimiter "app/main.go:42" sampleLib defaultConfig sampleEnv
    countedState 4
    "disk is full\n").2.1 rfl).2.trans (by decide)

/-- C4: for every level strictly below the configured minimum level, every
format string and all operands, `logfSkipframes` returns normally and leaves
the state (output, counters, limiter) as it was; so do `Infof`, `Warnf`,
`Errorf`, `WarnfSkipframes`, `ErrorfSkipframes`, `Fatalf` and `Panicf` when
their level is the one below the minimum. -/
theorem logfSkipframes_below_min (lib : Lib) (cfg : Config) (env : Env) (st : State)
    (skipframes : Int) (level : logLevel) (format : String) (args : List Arg)
    (h : level.rank < cfg.minLogLevel.rank) :
    logfSkipframes lib cfg env st skipframes level format args = (st, Outcome.returned) ∧
    (level = levelInfo → Infof lib cfg env st format args = (st, Outcome.returned)) ∧
    (level = levelWarn → Warnf lib cfg env st format args = (st, Outcome.returned) ∧
      WarnfSkipframes lib cfg env st skipframes format args = (st, Outcome.returned)) ∧
    (level = levelError → Errorf lib cfg env st format args = (st, Outcome.returned) ∧
      ErrorfSkipframes lib cfg env st skipframes format args = (st, Outcome.returned)) ∧
    (level = levelFatal → Fatalf lib cfg env st format args = (st, Outcome.returned)) ∧
    (level = levelPanic → Panicf lib cfg env st format args = (st, Outcome.returned)) := by
  have key : ∀ sk : Int, logfSkipframes lib cfg env st sk level format args =
      (st, Outcome.returned) := by
    intro sk
    unfold logfSkipframes
    rw [if_pos h]
  refine ⟨key _, ?_, ?_, ?_, ?_, ?_⟩
  · intro e
    subst e
    exact key 1
  · intro e
    subst e
    exact ⟨key 1, key _⟩
  · intro e
    subst e
    exact ⟨key 1, key _⟩
  · intro e
    subst e
    exact key 1
  · intro e
    subst e
    exact key 1

/-- Witness for C4: with minimum level PANIC, `Fatalf` returns normally and
changes nothing. -/
theorem logfSkipframes_below_min_witness :
    Fatalf sampleLib { defaultConfig with minLogLevel := levelPanic } sampleEnv freshState
      "cannot bind" [] = (freshState, Outcome.returned) :=
  (logfSkipframes_below_min sampleLib { defaultConfig with minLogLevel := levelPanic } sampleEnv
    freshState 1 levelFatal "cannot bind" [] (by decide)).2.2.2.2.1 rfl

/-- C5: the way a `logMessage` call ends is fixed by the level and the format:
INFO, WARN and ERROR return to the caller; FATAL exits with status -1 in every
format; PANIC exits with status -1 in the `json` format and otherwise panics
with an error carrying the message without its trailing newlines. For FATAL
and PANIC this happens after one line was written and one counter
incremented. -/
theorem logMessage_outcome (lib : Lib) (cfg : Config) (env : Env) (st : State)
    (skipframes : Int) (level : logLevel) (msg : String) :
    (logMessage lib cfg env st skipframes level msg).2 =
      (match level with
        | levelInfo => Outcome.returned
        | levelWarn => Outcome.returned
        | levelError => Outcome.returned
        | levelFatal => Outcome.exited (-1)
        | levelPanic =>
          if cfg.loggerFormat = "json" then Outcome.exited (-1)
          else Outcome.panicked (trimNewlines msg)) ∧
    (-1 : Int) ≠ 0 ∧
    (level = levelFatal ∨ level = levelPanic →
      (logMessage lib cfg env st skipframes level msg).1.output = st.output ++
        [formatLine lib.isPrintWide cfg (timestampOf cfg env) level
          (callerLocation env skipframes) (trimNewlines msg)] ∧
      (logMessage lib cfg env st skipframes level msg).1.counters = st.counters ++
        [counterName lib.isPrintWide cfg level (callerLocation env skipframes)]) := by
  refine ⟨?_, by decide, ?_⟩
  · rw [logMessage_eq]
    cases level
    · simp only [rateLimitStep, reduceCtorEq, if_false, Bool.false_eq_true, emit_eq,
        terminalAction]
    · split <;> simp only [emit_eq, terminalAction]
    · split <;> simp only [emit_eq, terminalAction]
    · simp only [rateLimitStep, reduceCtorEq, if_false, Bool.false_eq_true, emit_eq,
        terminalAction]
    · simp only [rateLimitStep, reduceCtorEq, if_false, Bool.false_eq_true, emit_eq,
        terminalAction, String.empty_append]
  · intro h
    rw [logMessage_eq]
    rcases h with h | h <;> subst h <;>
      simp only [rateLimitStep, reduceCtorEq, if_false, Bool.false_eq_true, emit_eq,
        String.empty_append, and_self]

/-- C6: in the plain-text format (every format other than `json`, so the
format `default`), a `logMessage` call that is not suppressed writes exactly
timestamp, tab, LEVEL, tab, location, tab, message, newline when time stamps
are enabled and LEVEL, tab, location, tab, message, newline when they are
disabled, where the message is the caller's message, with the suppression
notice in front when the limiter returned one, after its trailing newlines are
removed. -/
theorem logMessage_plain_line (lib : Lib) (cfg : Config) (env : Env) (st : State)
    (skipframes : Int) (level : logLevel) (msg : String)
    (hf : cfg.loggerFormat ≠ "json")
    (hs : (rateLimitStep cfg st.limiter level (callerLocation env skipframes)).2.1 = false) :
    (logMessage lib cfg env st skipframes level msg).1.output = st.output ++
      [if cfg.disableTimestamps = true then
        level.String ++ "\t" ++ callerLocation env skipframes ++ "\t" ++
          trimNewlines
            ((rateLimitStep cfg st.limiter level (callerLocation env skipframes)).2.2 ++ msg)
          ++ "\n"
      else
        env.now ++ "\t" ++ level.String ++ "\t" ++ callerLocation env skipframes ++ "\t" ++
          trimNewlines
            ((rateLimitStep cfg st.limiter level (callerLocation env skipframes)).2.2 ++ msg)
          ++ "\n"] := by
  rw [logMessage_not_suppressed lib cfg env st skipframes level msg hs]
  unfold formatLine timestampOf
  rw [if_neg hf]
  cases cfg.disableTimestamps <;> rfl

/-- Witness for C6: an INFO message in the default format with time stamps. -/
theorem logMessage_plain_line_witness :
    (logMessage sampleLib defaultConfig sampleEnv freshState 4 levelInfo
        "started on port 8080\n\n").1.output =
      ["2024-01-02T03:04:05.000+0000\tINFO\tapp/main.go:42\tstarted on port 8080\n"] :=
  (logMessage_plain_line sampleLib defaultConfig sampleEnv freshState 4 levelInfo
    "started on port 8080\n\n" (by decide) (by decide)).trans (by decide)

/-- C7: in the `json` format a `logMessage` call that is not suppressed writes
one object and one newline, with the keys `ts`, `level`, `caller`, `msg` in
this order when time stamps are enabled and `level`, `caller`, `msg` when they
are disabled, every value rendered by `strconv.Quote`; when time stamps are
disabled and the location and the message need no escaping the line is exactly
`{"level":"<LEVEL>","caller":"<location>","msg":"<message>"}` and a newline;
and `Warnf("retry %d", 3)`, with no WARN limit and a location that needs no
escaping, writes `{"level":"WARN","caller":"<location>","msg":"retry 3"}` and a
newline. -/
theorem logMessage_json_line (lib : Lib) (cfg : Config) (env : Env) (st : State)
    (skipframes : Int) (level : logLevel) (msg : String)
    (hf : cfg.loggerFormat = "json") :
    ((rateLimitStep cfg st.limiter level (callerLocation env skipframes)).2.1 = false →
      (logMessage lib cfg env st skipframes level msg).1.output = st.output ++
        [if cfg.disableTimestamps = true then
          "\x7b\"level\":\"" ++ level.String ++ "\",\"caller\":" ++
            Quote lib.isPrintWide (callerLocation env skipframes) ++ ",\"msg\":" ++
            Quote lib.isPrintWide (trimNewlines
              ((rateLimitStep cfg st.limiter level (callerLocation env skipframes)).2.2 ++ msg))
            ++ "\x7d\n"
        else
          "\x7b\"ts\":" ++ Quote lib.isPrintWide env.now ++ ",\"level\":\"" ++ level.String ++
            "\",\"caller\":" ++
            Quote lib.isPrintWide (callerLocation env skipframes) ++ ",\"msg\":" ++
            Quote lib.isPrintWide (trimNewlines
              ((rateLimitStep cfg st.limiter level (callerLocation env skipframes)).2.2 ++ msg))
            ++ "\x7d\n"]) ∧
    ((rateLimitStep cfg st.limiter level (callerLocation env skipframes)).2.1 = false →
      cfg.disableTimestamps = true →
      needsNoEscape lib.isPrintWide (callerLocation env skipframes) = true →
      needsNoEscape lib.isPrintWide (trimNewlines
        ((rateLimitStep cfg st.limiter level (callerLocation env skipframes)).2.2 ++ msg))
        = true →
      (logMessage lib cfg env st skipframes level msg).1.output = st.output ++
        ["\x7b\"level\":\"" ++ level.String ++ "\",\"caller\":\"" ++
          callerLocation env skipframes ++ "\",\"msg\":\"" ++
          trimNewlines
            ((rateLimitStep cfg st.limiter level (callerLocation env skipframes)).2.2 ++ msg)
          ++ "\"\x7d\n"]) ∧
    (cfg.disableTimestamps = true → cfg.minLogLevel.rank ≤ levelWarn.rank →
      cfg.warnsPerSecondLimit = 0 →
      needsNoEscape lib.isPrintWide (callerLocation env 4) = true →
      (Warnf lib cfg env st "retry %d" [Arg.int 3]).1.output = st.output ++
        ["\x7b\"level\":\"WARN\",\"caller\":\"" ++ callerLocation env 4 ++
          "\",\"msg\":\"retry 3\"\x7d\n"]) := by
  have general : ∀ (lv : logLevel) (sk : Int) (m : String),
      (rateLimitStep cfg st.limiter lv (callerLocation env sk)).2.1 = false →
      (logMessage lib cfg env st sk lv m).1.output = st.output ++
        [if cfg.disableTimestamps = true then
          "\x7b\"level\":\"" ++ lv.String ++ "\",\"caller\":" ++
            Quote lib.isPrintWide (callerLocation env sk) ++ ",\"msg\":" ++
            Quote lib.isPrintWide (trimNewlines
              ((rateLimitStep cfg st.limiter lv (callerLocation env sk)).2.2 ++ m))
            ++ "\x7d\n"
        else
          "\x7b\"ts\":" ++ Quote lib.isPrintWide env.now ++ ",\"level\":\"" ++ lv.String ++
            "\",\"caller\":" ++
            Quote lib.isPrintWide (callerLocation env sk) ++ ",\"msg\":" ++
            Quote lib.isPrintWide (trimNewlines
              ((rateLimitStep cfg st.limiter lv (callerLocation env sk)).2.2 ++ m))
            ++ "\x7d\n"] := by
    intro lv sk m hs
    rw [logMessage_not_suppressed lib cfg env st sk lv m hs]
    cases ht : cfg.disableTimestamps
    · rw [formatLine_json_ts _ _ _ _ _ _ hf ht, if_neg (by decide)]
      unfold timestampOf
      rw [ht]
      rfl
    · rw [formatLine_json_plain _ _ _ _ _ _ hf ht, if_pos rfl]
  refine ⟨general level skipframes msg, ?_, ?_⟩
  · intro hs ht hloc hmsg
    rw [general level skipframes msg hs, if_pos ht, json_plain_noEscape _ _ _ _ hloc hmsg]
  · intro ht hg hl hloc
    have z : toUint64 0 = 0 := by decide
    have e : rateLimitStep cfg st.limiter levelWarn (callerLocation env 4) =
        (st.limiter, false, "") := by
      simp only [rateLimitStep, hl, z, if_true, logLimiter.needSuppress]
    have w : Warnf lib cfg env st "retry %d" [Arg.int 3] =
        logMessage lib cfg env st 4 levelWarn "retry 3" := by
      unfold Warnf logf logfSkipframes
      rw [if_neg (by omega)]
      rfl
    have t : trimNewlines ("" ++ "retry 3") = "retry 3" := by decide
    have hmsg : needsNoEscape lib.isPrintWide "retry 3" = true := rfl
    have fin : "\x7b\"level\":\"" ++ levelWarn.String ++ "\",\"caller\":\"" ++
        callerLocation env 4 ++ "\",\"msg\":\"" ++ "retry 3" ++ "\"\x7d\n" =
        "\x7b\"level\":\"WARN\",\"caller\":\"" ++ callerLocation env 4 ++
          "\",\"msg\":\"retry 3\"\x7d\n" := by
      apply String.ext
      simp only [String.data_append, List.append_assoc]
      rfl
    rw [w, general levelWarn 4 "retry 3" (by rw [e]), if_pos ht, e, t,
      json_plain_noEscape _ _ _ _ hloc hmsg, fin]

/-- Witness for C7: `Warnf("retry %d", 3)` in the `json` format without time
stamps. -/
theorem logMessage_json_line_witness :
    (Warnf sampleLib jsonConfig sampleEnv freshState "retry %d" [Arg.int 3]).1.output =
      ["\x7b\"level\":\"WARN\",\"caller\":\"app/main.go:42\",\"msg\":\"retry 3\"\x7d\n"] :=
  ((logMessage_json_line sampleLib jsonConfig sampleEnv freshState 4 levelWarn "retry 3"
    rfl).2.2 rfl (by decide) rfl (by decide)).trans (by decide)

/-- C8, at a failing input: in the `json` format, `Errorf` with the one-character
message U+0001 writes the line `{"level":"ERROR","caller":"app/main.go:42","msg":"\x01"}`:
the control character is rendered by the Go escape `\x01`, which is not a JSON
escape, so the value of `msg` does not decode as a JSON string (while a message
of a quote, a backslash, a newline and a tab does decode to itself). -/
theorem errorf_json_control_character :
    (Errorf sampleLib jsonConfig sampleEnv freshState "\x01" []).1.output =
      ["\x7b\"level\":\"ERROR\",\"caller\":\"app/main.go:42\",\"msg\":\"\\x01\"\x7d\n"] ∧
    Quote sampleLib.isPrintWide (trimNewlines "\x01") = "\"\\x01\"" ∧
    jsonDecodeString (Quote sampleLib.isPrintWide (trimNewlines "\x01")) = none ∧
    jsonDecodeString (Quote sampleLib.isPrintWide (trimNewlines "\"\\\n\t")) =
      some "\"\\\n\t" := by
  decide

/-- C9: the message rendered into the line is the caller's message with its
maximal run of trailing newlines removed (the message is the rendered message
followed by newlines only, the rendered message does not end in a newline, and
a message of newlines only becomes empty), behind the suppression notice when
there is one; and the line written, in either format, ends with exactly one
newline: its last character is a newline and the one before is not. -/
theorem logMessage_trailing_newline (lib : Lib) (cfg : Config) (env : Env) (st : State)
    (skipframes : Int) (level : logLevel) (msg : String)
    (hs : (rateLimitStep cfg st.limiter level (callerLocation env skipframes)).2.1 = false) :
    (∃ k, msg.data = (trimNewlines msg).data ++ List.replicate k '\n') ∧
    (trimNewlines msg).data.getLast? ≠ some '\n' ∧
    ((∀ c ∈ msg.data, c = '\n') → trimNewlines msg = "") ∧
    (logMessage lib cfg env st skipframes level msg).1.output = st.output ++
      [formatLine lib.isPrintWide cfg (timestampOf cfg env) level (callerLocation env skipframes)
        ((rateLimitStep cfg st.limiter level (callerLocation env skipframes)).2.2 ++
          trimNewlines msg)] ∧
    ∃ body c,
      (formatLine lib.isPrintWide cfg (timestampOf cfg env) level (callerLocation env skipframes)
        ((rateLimitStep cfg st.limiter level (callerLocation env skipframes)).2.2 ++
          trimNewlines msg)).data = body ++ [c, '\n'] ∧ c ≠ '\n' := by
  refine ⟨(trimNewlines_spec msg).1, (trimNewlines_spec msg).2, trimNewlines_all_newlines msg,
    ?_, ?_⟩
  · rw [logMessage_not_suppressed lib cfg env st skipframes level msg hs, rateLimitStep_trim]
  · apply formatLine_ends
    rw [← rateLimitStep_trim]
    exact (trimNewlines_spec _).2

/-- Witness for C9: a message with an interior newline and three trailing
ones, in the default format. -/
theorem logMessage_trailing_newline_witness :
    (logMessage sampleLib defaultConfig sampleEnv freshState 4 levelError
        "first\nsecond\n\n\n").1.output =
      ["2024-01-02T03:04:05.000+0000\tERROR\tapp/main.go:42\tfirst\nsecond\n"] :=
  (logMessage_trailing_newline sampleLib defaultConfig sampleEnv freshState 4 levelError
    "first\nsecond\n\n\n" (by decide)).2.2.2.1.trans (by decide)

/-- C10: a `logMessage` call at level INFO, FATAL or PANIC leaves the limiter
unchanged and writes its line with the message not prefixed, whatever the
limiter state and the two limits; a WARN call consults the limiter with the
WARN limit (the limiter afterwards and what is written are those of
`needSuppress` at that limit) and does not depend on the ERROR limit, and an
ERROR call consults it with the ERROR limit and does not depend on the WARN
limit. -/
theorem logMessage_rate_limit_scope (lib : Lib) (cfg : Config) (env : Env) (st : State)
    (skipframes : Int) (level : logLevel) (msg : String) (other : Int) :
    (level = levelInfo ∨ level = levelFatal ∨ level = levelPanic →
      (logMessage lib cfg env st skipframes level msg).1.limiter = st.limiter ∧
      (logMessage lib cfg env st skipframes level msg).1.output = st.output ++
        [formatLine lib.isPrintWide cfg (timestampOf cfg env) level
          (callerLocation env skipframes) (trimNewlines msg)]) ∧
    ((logMessage lib cfg env st skipframes levelWarn msg).1.limiter =
        (st.limiter.needSuppress (toUint64 cfg.warnsPerSecondLimit)
          (callerLocation env skipframes)).1 ∧
      (logMessage lib cfg env st skipframes levelWarn msg).1.output =
        if (st.limiter.needSuppress (toUint64 cfg.warnsPerSecondLimit)
            (callerLocation env skipframes)).2.1 = true then st.output
        else st.output ++
          [formatLine lib.isPrintWide cfg (timestampOf cfg env) levelWarn
            (callerLocation env skipframes)
            (trimNewlines ((st.limiter.needSuppress (toUint64 cfg.warnsPerSecondLimit)
              (callerLocation env skipframes)).2.2 ++ msg))]) ∧
    ((logMessage lib cfg env st skipframes levelError msg).1.limiter =
        (st.limiter.needSuppress (toUint64 cfg.errorsPerSecondLimit)
          (callerLocation env skipframes)).1 ∧
      (logMessage lib cfg env st skipframes levelError msg).1.output =
        if (st.limiter.needSuppress (toUint64 cfg.errorsPerSecondLimit)
            (callerLocation env skipframes)).2.1 = true then st.output
        else st.output ++
          [formatLine lib.isPrintWide cfg (timestampOf cfg env) levelError
            (callerLocation env skipframes)
            (trimNewlines ((st.limiter.needSuppress (toUint64 cfg.errorsPerSecondLimit)
              (callerLocation env skipframes)).2.2 ++ msg))]) ∧
    logMessage lib { cfg with errorsPerSecondLimit := other } env st skipframes levelWarn msg =
      logMessage lib cfg env st skipframes levelWarn msg ∧
    logMessage lib { cfg with warnsPerSecondLimit := other } env st skipframes levelError msg =
      logMessage lib cfg env st skipframes levelError msg := by
  refine ⟨?_, ?_, ?_, rfl, rfl⟩
  · intro h
    rw [logMessage_eq]
    rcases h with h | h | h <;> subst h <;>
      simp only [rateLimitStep, reduceCtorEq, if_false, Bool.false_eq_true, emit_eq,
        String.empty_append, and_self]
  · rw [logMessage_eq]
    simp only [rateLimitStep, if_true]
    split <;> simp only [emit_eq, and_self]
  · rw [logMessage_eq]
    simp only [rateLimitStep, reduceCtorEq, if_false, if_true]
    split <;> simp only [emit_eq, and_self]

/-- Witness for C10: a FATAL message from a location far beyond an ERROR and
WARN limit of 1 is written unchanged and the limiter keeps its count. -/
theorem logMessage_rate_limit_scope_witness :
    ((logMessage sampleLib limitOneConfig sampleEnv
        countedState 4 levelFatal
        "cannot bind").1.limiter.m "app/main.go:42" = some 7) ∧
    (logMessage sampleLib limitOneConfig sampleEnv
        countedState 4 levelFatal
        "cannot bind").1.output =
      ["2024-01-02T03:04:05.000+0000\tFATAL\tapp/main.go:42\tcannot bind\n"] :=
  ⟨by
    rw [((logMessage_rate_limit_scope sampleLib limitOneConfig sampleEnv
        countedState 4 levelFatal
        "cannot bind" 0).1 (Or.inr (Or.inl rfl))).1]
    decide,
   ((logMessage_rate_limit_scope sampleLib limitOneConfig sampleEnv
        countedState 4 levelFatal
        "cannot bind" 0).1 (Or.inr (Or.inl rfl))).2.trans (by decide)⟩

/-- C11: a `logMessage` call that the rate limiter suppresses writes nothing
and increments no counter; every other call writes exactly one line and
increments exactly one counter, once, and the name of that counter is given by
one function of the version, the level and the location, whatever the message,
the time stamp and the rest of the configuration. -/
theorem logMessage_line_and_counter (lib : Lib) :
    ∃ name : String → logLevel → String → String,
      ∀ (cfg : Config) (env : Env) (st : State) (skipframes : Int) (level : logLevel)
        (msg : String),
        ((rateLimitStep cfg st.limiter level (callerLocation env skipframes)).2.1 = true →
          (logMessage lib cfg env st skipframes level msg).1.output = st.output ∧
          (logMessage lib cfg env st skipframes level msg).1.counters = st.counters) ∧
        ((rateLimitStep cfg st.limiter level (callerLocation env skipframes)).2.1 = false →
          (logMessage lib cfg env st skipframes level msg).1.output = st.output ++
            [formatLine lib.isPrintWide cfg (timestampOf cfg env) level
              (callerLocation env skipframes)
              (trimNewlines
                ((rateLimitStep cfg st.limiter level (callerLocation env skipframes)).2.2
                  ++ msg))] ∧
          (logMessage lib cfg env st skipframes level msg).1.counters = st.counters ++
            [name cfg.version level (callerLocation env skipframes)]) := by
  refine ⟨fun version level location =>
    "vm_log_messages_total\x7bapp_version=" ++ Quote lib.isPrintWide version ++ ", level=\"" ++
      level.String ++ "\", location=" ++ Quote lib.isPrintWide location ++ "\x7d", ?_⟩
  intro cfg env st skipframes level msg
  constructor
  · intro hs
    exact ⟨(logMessage_suppressed lib cfg env st skipframes level msg hs).1,
      (logMessage_suppressed lib cfg env st skipframes level msg hs).2.1⟩
  · intro hs
    refine ⟨logMessage_not_suppressed lib cfg env st skipframes level msg hs, ?_⟩
    rw [logMessage_counters lib cfg env st skipframes level msg hs, counterName_eq]

/-- C12, as amended: the name of the counter incremented for an emitted
message is `vm_log_messages_total{app_version=.., level=.., location=..}` with
the version, the level name and the location rendered by `%q`; when the version
and the location need no escaping it is exactly
`vm_log_messages_total{app_version="<version>", level="<LEVEL>", location="<file:line>"}`. -/
theorem logMessage_counter_name (lib : Lib) (cfg : Config) (env : Env) (st : State)
    (skipframes : Int) (level : logLevel) (msg : String)
    (hs : (rateLimitStep cfg st.limiter level (callerLocation env skipframes)).2.1 = false) :
    (logMessage lib cfg env st skipframes level msg).1.counters = st.counters ++
      ["vm_log_messages_total\x7bapp_version=" ++ Quote lib.isPrintWide cfg.version ++
        ", level=\"" ++ level.String ++ "\", location=" ++
        Quote lib.isPrintWide (callerLocation env skipframes) ++ "\x7d"] ∧
    (needsNoEscape lib.isPrintWide cfg.version = true →
      needsNoEscape lib.isPrintWide (callerLocation env skipframes) = true →
      (logMessage lib cfg env st skipframes level msg).1.counters = st.counters ++
        ["vm_log_messages_total\x7bapp_version=\"" ++ cfg.version ++ "\", level=\"" ++
          level.String ++ "\", location=\"" ++ callerLocation env skipframes ++ "\"\x7d"]) := by
  rw [logMessage_counters lib cfg env st skipframes level msg hs]
  constructor
  · rw [counterName_eq]
  · intro hv hloc
    rw [counterName_noEscape _ _ _ _ hv hloc]

/-- Witness for C12: the counter of an INFO message under the default
configuration. -/
theorem logMessage_counter_name_witness :
    (logMessage sampleLib defaultConfig sampleEnv freshState 4 levelInfo "ready").1.counters =
      ["vm_log_messages_total\x7bapp_version=\"v1.0.0\", level=\"INFO\", " ++
        "location=\"app/main.go:42\"\x7d"] :=
  ((logMessage_counter_name sampleLib defaultConfig sampleEnv freshState 4 levelInfo "ready"
    (by decide)).2 (by decide) (by decide)).trans (by decide)

/-- C12, counterexample: for version `v1.0.0`, level INFO and location
`app/main.go:42` the counter incremented is not
`log_messages_total{app_version="v1.0.0", level="INFO", location="app/main.go:42"}`:
its name starts with `vm_`. -/
theorem logMessage_counter_name_has_vm :
    (logMessage sampleLib defaultConfig sampleEnv freshState 4 levelInfo "ready").1.counters ≠
      ["log_messages_total\x7bapp_version=\"v1.0.0\", level=\"INFO\", " ++
        "location=\"app/main.go:42\"\x7d"] ∧
    (logMessage sampleLib defaultConfig sampleEnv freshState 4 levelInfo "ready").1.counters =
      ["vm_log_messages_total\x7bapp_version=\"v1.0.0\", level=\"INFO\", " ++
        "location=\"app/main.go:42\"\x7d"] := by
  decide

/-- C13: `validateLoggerFormat` returns when the format is `default` or `json`
and panics otherwise; `setLoggerOutput` returns when the output is `stderr` or
`stdout` and panics otherwise, leaving `output` as it was; on `stderr` it
sets `output` to `os.Stderr` and on `stdout` to `os.Stdout`. -/
theorem init_rejects_bad_values (isPrintWide : Char → Bool) (value : String)
    (output : Writer) :
    ((∃ err, validateLoggerFormat isPrintWide value = Outcome.panicked err) ↔
      ¬ (value = "default" ∨ value = "json")) ∧
    (validateLoggerFormat isPrintWide value = Outcome.returned ↔
      (value = "default" ∨ value = "json")) ∧
    ((∃ err, (setLoggerOutput isPrintWide value output).2 = Outcome.panicked err) ↔
      ¬ (value = "stderr" ∨ value = "stdout")) ∧
    ((setLoggerOutput isPrintWide value output).2 = Outcome.returned ↔
      (value = "stderr" ∨ value = "stdout")) ∧
    (value = "stderr" → (setLoggerOutput isPrintWide value output).1 = Writer.osStderr) ∧
    (value = "stdout" → (setLoggerOutput isPrintWide value output).1 = Writer.osStdout) ∧
    (¬ (value = "stderr" ∨ value = "stdout") →
      (setLoggerOutput isPrintWide value output).1 = output) := by
  refine ⟨?_, ?_, ?_, ?_, ?_, ?_, ?_⟩
  · unfold validateLoggerFormat
    split
    · rename_i h
      constructor
      · rintro ⟨err, he⟩
        cases he
      · intro hn
        exact absurd h hn
    · rename_i h
      exact ⟨fun _ => h, fun _ => ⟨_, rfl⟩⟩
  · unfold validateLoggerFormat
    split
    · rename_i h
      exact ⟨fun _ => h, fun _ => rfl⟩
    · rename_i h
      constructor
      · intro he
        cases he
      · intro hy
        exact absurd hy h
  · unfold setLoggerOutput
    split
    · rename_i h
      constructor
      · rintro ⟨err, he⟩
        cases he
      · intro hn
        exact absurd (Or.inl h) hn
    · split
      · rename_i h1 h2
        constructor
        · rintro ⟨err, he⟩
          cases he
        · intro hn
          exact absurd (Or.inr h2) hn
      · rename_i h1 h2
        constructor
        · intro _ hc
          rcases hc with hc | hc
          · exact h1 hc
          · exact h2 hc
        · intro _
          exact ⟨_, rfl⟩
  · unfold setLoggerOutput
    split
    · rename_i h
      exact ⟨fun _ => Or.inl h, fun _ => rfl⟩
    · split
      · rename_i h1 h2
        exact ⟨fun _ => Or.inr h2, fun _ => rfl⟩
      · rename_i h1 h2
        constructor
        · intro he
          cases he
        · intro hc
          rcases hc with hc | hc
          · exact absurd hc h1
          · exact absurd hc h2
  · intro h
    unfold setLoggerOutput
    rw [if_pos h]
  · intro h
    unfold setLoggerOutput
    have h1 : ¬ value = "stderr" := by
      rw [h]
      decide
    rw [if_neg h1, if_pos h]
  · intro h
    unfold setLoggerOutput
    rw [if_neg (fun e => h (Or.inl e)), if_neg (fun e => h (Or.inr e))]

/-- Witness for C13: the output name `file` is rejected and `output` stays
`os.Stderr`; the format name `json` is accepted. -/
theorem init_rejects_bad_values_witness :
    (setLoggerOutput sampleLib.isPrintWide "file" Writer.osStderr).1 = Writer.osStderr ∧
    validateLoggerFormat sampleLib.isPrintWide "json" = Outcome.returned :=
  ⟨(init_rejects_bad_values sampleLib.isPrintWide "file" Writer.osStderr).2.2.2.2.2.2
      (by decide),
    (init_rejects_bad_values sampleLib.isPrintWide "json" Writer.osStderr).2.1.mpr
      (by decide)⟩

/-- C15, as amended: for every limiter state, every `uint64` limit and every
location `X`, except when the limit and the count of `X` are both
`2 ^ 64 - 1`, a call `needSuppress(limit, X)` leaves the count of every other
location unchanged, removes no entry, and leaves the count of `X` (an absent
entry counting as 0) unchanged or one larger; `reset` empties the whole map. -/
theorem needSuppress_frame (ll : logLimiter) (limit : Nat) (X : String)
    (hlim : limit < 2 ^ 64)
    (hno : ¬ (limit = 2 ^ 64 - 1 ∧ ll.m X = some (2 ^ 64 - 1))) :
    (∀ Y, Y ≠ X → (ll.needSuppress limit X).1.m Y = ll.m Y) ∧
    (∀ Y, ll.m Y ≠ none → (ll.needSuppress limit X).1.m Y ≠ none) ∧
    countOf ll X ≤ countOf (ll.needSuppress limit X).1 X ∧
    countOf (ll.needSuppress limit X).1 X ≤ countOf ll X + 1 ∧
    (∀ Y, ll.reset.m Y = none) := by
  refine ⟨fun Y hY => needSuppress_other ll limit X Y hY, ?_,
    (needSuppress_count_step ll limit X hlim hno).1,
    (needSuppress_count_step ll limit X hlim hno).2, fun _ => rfl⟩
  intro Y hY
  rcases needSuppress_store_or_same ll limit X with h | ⟨n, h⟩
  · rw [h]
    exact hY
  · rw [h]
    by_cases e : Y = X
    · rw [e, store_same]
      exact Option.some_ne_none _
    · rw [store_other _ _ _ _ e]
      exact hY

/-- Witness for C15: limit 3 on a limiter that has counted `app/main.go:42` 7
times: the call is suppressed and the count stays 7. -/
theorem needSuppress_frame_witness :
    countOf (countedState.limiter.needSuppress 3 "app/main.go:42").1 "app/main.go:42" ≤ 7 + 1 :=
  (needSuppress_frame countedState.limiter 3 "app/main.go:42" (by norm_num)
    (by
      intro h
      exact absurd h.1 (by norm_num))).2.2.2.1

/-- C15, counterexample: with limit `2 ^ 64 - 1` and a count of `2 ^ 64 - 1`
for `X`, the call `needSuppress(limit, X)` stores the wrapped sum 0: the count
of `X` is lowered without a reset. -/
theorem needSuppress_lowers_full_count :
    countOf fullLimiter "X" = 18446744073709551615 ∧
    countOf (fullLimiter.needSuppress 18446744073709551615 "X").1 "X" = 0 := by
  decide

/-- C16, as amended: for every limit `L` with `0 < L < 2 ^ 64 - 1` and every
location `X`, a call `needSuppress(L, X)` stores 1 when `X` has no entry and
adds one to a stored count of at most `L`, the threshold call (count equal to
`L`) included; a call with a stored count above `L` is suppressed and leaves
the limiter as it is. So after `k` calls for `X` in one reset window the stored
count of `X` is the smaller of `k` and `L + 1`. -/
theorem needSuppress_count (L : Nat) (X : String) (hL : 0 < L) (hB : L + 1 < 2 ^ 64)
    (ll : logLimiter) (hX : ll.m X = none) (pre : List (Nat × String))
    (hpre : ∀ c ∈ pre, c.2 = X → c.1 = L) :
    countOf (runCalls ll pre) X = min (callsFor X pre) (L + 1) ∧
    (∀ l2 : logLimiter, l2.m X = none → (l2.needSuppress L X).1.m X = some 1) ∧
    (∀ (l2 : logLimiter) (n : Nat), l2.m X = some n → n ≤ L →
      (l2.needSuppress L X).1.m X = some (n + 1)) ∧
    (∀ (l2 : logLimiter) (n : Nat), l2.m X = some n → L < n →
      (l2.needSuppress L X) = (l2, true, "")) := by
  have hL0 : L ≠ 0 := by omega
  refine ⟨?_, ?_, ?_, ?_⟩
  · have inv := runCalls_counted L X hL hB pre ll 0 (Or.inl ⟨rfl, hX⟩) hpre
    rw [Nat.zero_add] at inv
    unfold countOf
    rcases inv with ⟨h0, hm⟩ | ⟨_, hm⟩
    · rw [hm, h0]
      rfl
    · rw [hm]
      rfl
  · intro l2 hm
    simp only [logLimiter.needSuppress, hL0, hm, if_false]
    exact store_same _ _ _
  · intro l2 n hm hn
    have hmod : (n + 1) % uint64Size = n + 1 := Nat.mod_eq_of_lt (by
      have : uint64Size = 2 ^ 64 := rfl
      omega)
    by_cases c : n = L
    · subst c
      simp only [logLimiter.needSuppress, hL0, hm, if_false, ge_iff_le, le_refl, if_true, hmod]
      exact store_same _ _ _
    · have h5 : ¬ n ≥ L := by omega
      simp only [logLimiter.needSuppress, hL0, hm, if_false, h5, hmod]
      exact store_same _ _ _
  · intro l2 n hm hn
    have h5 : n ≥ L := by omega
    have h6 : ¬ n = L := by omega
    simp only [logLimiter.needSuppress, hL0, hm, if_false, h5, if_true, h6]

/-- Witness for C16: limit 1 and five calls for one location: the count is 2. -/
theorem needSuppress_count_witness :
    countOf (runCalls newLogLimiter
        [(1, "a.go:1"), (1, "a.go:1"), (1, "a.go:1"), (1, "a.go:1"), (1, "a.go:1")]) "a.go:1" =
      2 :=
  (needSuppress_count 1 "a.go:1" (by decide) (by norm_num) newLogLimiter rfl
    [(1, "a.go:1"), (1, "a.go:1"), (1, "a.go:1"), (1, "a.go:1"), (1, "a.go:1")]
    (by decide)).1.trans (by decide)

/-- C16, counterexample: with limit 1, the third call for `X` finds the count 2,
is suppressed and leaves the count at 2, where the claim gives 3. -/
theorem needSuppress_suppressed_call_keeps_count :
    (runCalls newLogLimiter [(1, "X"), (1, "X")]).m "X" = some 2 ∧
    ((runCalls newLogLimiter [(1, "X"), (1, "X")]).needSuppress 1 "X").2.1 = true ∧
    (runCalls newLogLimiter [(1, "X"), (1, "X"), (1, "X")]).m "X" = some 2 := by
  decide

/-- C17: the location is `"???:0"` when the caller cannot be resolved;
otherwise it is the file name, a colon and the line number in decimal, where
the file name is the part after the first occurrence of `/VictoriaMetrics/`
when the path contains this segment and the path itself when it does not. The
limiter is consulted under this location, and the line written and the counter
incremented carry it. -/
theorem callerLocation_spec (lib : Lib) (cfg : Config) (env : Env) (st : State)
    (skipframes : Int) (level : logLevel) (msg : String) :
    ((env.caller skipframes).ok = false → callerLocation env skipframes = "???:0") ∧
    ((env.caller skipframes).ok = true →
      ¬ "/VictoriaMetrics/".data <:+: (env.caller skipframes).file.data →
      callerLocation env skipframes =
        (env.caller skipframes).file ++ ":" ++ toString (env.caller skipframes).line) ∧
    ((env.caller skipframes).ok = true →
      ∀ pre post : List Char,
        (env.caller skipframes).file.data = pre ++ "/VictoriaMetrics/".data ++ post →
        (∀ pre' post', (env.caller skipframes).file.data =
            pre' ++ "/VictoriaMetrics/".data ++ post' → pre.length ≤ pre'.length) →
        callerLocation env skipframes =
          String.mk post ++ ":" ++ toString (env.caller skipframes).line) ∧
    (logMessage lib cfg env st skipframes level msg).1.limiter =
      (rateLimitStep cfg st.limiter level (callerLocation env skipframes)).1 ∧
    ((rateLimitStep cfg st.limiter level (callerLocation env skipframes)).2.1 = false →
      (logMessage lib cfg env st skipframes level msg).1.output = st.output ++
        [formatLine lib.isPrintWide cfg (timestampOf cfg env) level
          (callerLocation env skipframes)
          (trimNewlines
            ((rateLimitStep cfg st.limiter level (callerLocation env skipframes)).2.2 ++ msg))] ∧
      (logMessage lib cfg env st skipframes level msg).1.counters = st.counters ++
        [counterName lib.isPrintWide cfg level (callerLocation env skipframes)]) := by
  refine ⟨callerLocation_unknown env skipframes, ?_, ?_, ?_, ?_⟩
  · intro hok hn
    rw [callerLocation_ok env skipframes hok, strip_not_found _ hn]
  · intro hok pre post hl hmin
    rw [callerLocation_ok env skipframes hok, strip_found _ pre post hl hmin]
  · rw [logMessage_eq]
    split
    · rfl
    · rw [emit_eq]
  · intro hs
    exact ⟨logMessage_not_suppressed lib cfg env st skipframes level msg hs,
      logMessage_counters lib cfg env st skipframes level msg hs⟩

/-- Witness for C17: a caller in `/home/u/VictoriaMetrics/app/main.go`, line 42,
gives the location `app/main.go:42`. -/
theorem callerLocation_spec_witness :
    callerLocation sampleEnv 4 = "app/main.go:42" :=
  ((callerLocation_spec sampleLib defaultConfig sampleEnv freshState 4 levelInfo "ready").2.2.1
    rfl "/home/u".data "app/main.go".data (by decide)
    (by
      intro pre' post' h
      rcases indexFrom_spec "/VictoriaMetrics/".data (sampleEnv.caller 4).file.data 0 with
        ⟨_, he⟩ | ⟨pre0, post0, _, he, hmin0⟩
      · exact absurd he (by decide)
      · have e7 : indexFrom "/VictoriaMetrics/".data (sampleEnv.caller 4).file.data 0 = 7 := by
          decide
        rw [e7] at he
        have h0 := hmin0 pre' post' h
        have h7 : "/home/u".data.length = 7 := rfl
        omega)).trans (by decide)

/-- C19: for every byte slice `p`, `stdErrorWriter.Write(p)` returns
`(len(p), nil)`, also when the message is dropped by the level gate (the state
is then unchanged) or suppressed by the ERROR limit (nothing is written); and
when the message is emitted, the line written is the one of level ERROR whose
message is the text of `p` itself, whatever percent signs it holds, behind the
suppression notice when there is one and without its trailing newlines. -/
theorem write_returns_len (lib : Lib) (cfg : Config) (env : Env) (st : State) (p : String) :
    (stdErrorWriter.Write lib cfg env st p).2 =
      (Outcome.returned, some (p.utf8ByteSize, none)) ∧
    (levelError.rank < cfg.minLogLevel.rank →
      (stdErrorWriter.Write lib cfg env st p).1 = st) ∧
    (¬ levelError.rank < cfg.minLogLevel.rank →
      (rateLimitStep cfg st.limiter levelError (callerLocation env 5)).2.1 = true →
      (stdErrorWriter.Write lib cfg env st p).1.output = st.output) ∧
    (¬ levelError.rank < cfg.minLogLevel.rank →
      (rateLimitStep cfg st.limiter levelError (callerLocation env 5)).2.1 = false →
      (stdErrorWriter.Write lib cfg env st p).1.output = st.output ++
        [formatLine lib.isPrintWide cfg (timestampOf cfg env) levelError (callerLocation env 5)
          ((rateLimitStep cfg st.limiter levelError (callerLocation env 5)).2.2 ++
            trimNewlines p)]) := by
  refine ⟨?_, ?_, ?_, ?_⟩
  · rw [write_eq]
  · intro h
    rw [write_eq]
    unfold logfSkipframes
    rw [if_pos h]
  · intro hg hs
    rw [write_logs lib cfg env st p hg]
    exact (logMessage_suppressed lib cfg env st 5 levelError p hs).1
  · intro hg hs
    rw [write_logs lib cfg env st p hg,
      logMessage_not_suppressed lib cfg env st 5 levelError p hs, rateLimitStep_trim]

/-- Witness for C19: a slice with percent signs and a trailing newline, under
the default configuration. -/
theorem write_returns_len_witness :
    (stdErrorWriter.Write sampleLib defaultConfig sampleEnv freshState
        "100%s done %d\n").1.output =
      ["2024-01-02T03:04:05.000+0000\tERROR\tapp/main.go:42\t100%s done %d\n"] ∧
    (stdErrorWriter.Write sampleLib defaultConfig sampleEnv freshState "100%s done %d\n").2 =
      (Outcome.returned, some (14, none)) :=
  ⟨((write_returns_len sampleLib defaultConfig sampleEnv freshState "100%s done %d\n").2.2.2
      (by decide) (by decide)).trans (by decide),
    (write_returns_len sampleLib defaultConfig sampleEnv freshState "100%s done %d\n").1.trans
      (by decide)⟩

end Logger

namespace Bytesutil

/-! ### Lemmas on the intern cache -/

theorem keysMatch_storeEntry (m : String → Option ismEntry) (k : String) (e : ismEntry)
    (h : keysMatch m) (he : e.s = k) : keysMatch (storeEntry m k e) := by
  intro j e' hj
  unfold storeEntry at hj
  by_cases c : j = k
  · rw [if_pos c] at hj
    rw [← Option.some.inj hj, he, c]
  · rw [if_neg c] at hj
    exact h j e' hj

theorem cleanup_some (m : String → Option ismEntry) (ct : Nat) (j : String) (e : ismEntry)
    (h : cleanup m ct j = some e) : m j = some e := by
  unfold cleanup at h
  cases hm : m j with
  | none =>
    rw [hm] at h
    cases h
  | some e0 =>
    rw [hm] at h
    simp only at h
    split at h
    · cases h
    · exact h

theorem keysMatch_cleanup (m : String → Option ismEntry) (ct : Nat) (h : keysMatch m) :
    keysMatch (cleanup m ct) :=
  fun j e hj => h j e (cleanup_some m ct j e hj)

theorem InternString_new (env : InternEnv) (st : InternState) (s : String)
    (hm : st.internStringsMap s = none)
    (hlen : ¬ (s.utf8ByteSize : Int) > env.internStringMaxLen) :
    InternString env st s =
      (if (env.needCleanup st.internStringsMapLastCleanupTime env.ct).1 = true then
        ({ internStringsMap :=
            cleanup (storeEntry st.internStringsMap s { lastAccessTime := env.ct, s := s })
              env.ct,
           internStringsMapLastCleanupTime :=
            (env.needCleanup st.internStringsMapLastCleanupTime env.ct).2 }, s)
      else
        ({ internStringsMap :=
            storeEntry st.internStringsMap s { lastAccessTime := env.ct, s := s },
           internStringsMapLastCleanupTime :=
            (env.needCleanup st.internStringsMapLastCleanupTime env.ct).2 }, s)) := by
  unfold InternString
  simp only [hm, if_neg hlen]

/-! ## The claims on `InternString` -/

/-- C14: for every string `s` and every cache in which each entry's stored
string equals its key, `InternString(s)` returns a string with the content of
`s`, whether `s` was cached, is newly cached or is too long to cache, and in
the cache after the call each entry's stored string again equals its key. -/
theorem InternString_keeps_content (env : InternEnv) (st : InternState) (s : String)
    (h : keysMatch st.internStringsMap) :
    (InternString env st s).2 = s ∧ keysMatch (InternString env st s).1.internStringsMap := by
  cases hm : st.internStringsMap s with
  | some e =>
    have he : e.s = s := h s e hm
    unfold InternString
    simp only [hm]
    split
    · exact ⟨he, keysMatch_storeEntry _ _ _ h he⟩
    · exact ⟨he, h⟩
  | none =>
    by_cases hlen : (s.utf8ByteSize : Int) > env.internStringMaxLen
    · unfold InternString
      simp only [hm, if_pos hlen]
      exact ⟨trivial, h⟩
    · rw [InternString_new env st s hm hlen]
      have hs := keysMatch_storeEntry st.internStringsMap s
        { lastAccessTime := env.ct, s := s } h rfl
      split
      · exact ⟨rfl, keysMatch_cleanup _ _ hs⟩
      · exact ⟨rfl, hs⟩

/-- Witness for C14: interning `up`, which the sample cache holds. -/
theorem InternString_keeps_content_witness :
    (InternString sampleInternEnv sampleInternState "up").2 = "up" :=
  (InternString_keeps_content sampleInternEnv sampleInternState "up"
    (keysMatch_storeEntry _ _ _ (fun _ _ hk => nomatch hk) rfl)).1

/-- C18, as amended: for every string `s` that is not in the cache, when `s`
is longer than `internStringMaxLen` (in bytes) `InternString(s)` returns `s`
and leaves the cache and the time of the last cleanup as they were; when it is
not, the call returns `s` and stores the entry of `s`, made of the current time
and `s`, under the key `s`: the cache after the call is the cache with this
entry stored, passed through the cleanup when `needCleanup` asks for one. The
entry is in the cache after the call when no cleanup runs or when the current
time plus 300 is a `uint64`; when the cleanup runs and the current time, a
`uint64`, plus 300 is not one, the entry is not in the cache after the call. -/
theorem InternString_uncached (env : InternEnv) (st : InternState) (s : String)
    (hm : st.internStringsMap s = none) :
    ((s.utf8ByteSize : Int) > env.internStringMaxLen → InternString env st s = (st, s)) ∧
    (¬ (s.utf8ByteSize : Int) > env.internStringMaxLen →
      (InternString env st s).2 = s ∧
      ((env.needCleanup st.internStringsMapLastCleanupTime env.ct).1 = false →
        (InternString env st s).1.internStringsMap =
          storeEntry st.internStringsMap s { lastAccessTime := env.ct, s := s }) ∧
      ((env.needCleanup st.internStringsMapLastCleanupTime env.ct).1 = true →
        (InternString env st s).1.internStringsMap =
          cleanup (storeEntry st.internStringsMap s { lastAccessTime := env.ct, s := s })
            env.ct) ∧
      ((env.needCleanup st.internStringsMapLastCleanupTime env.ct).1 = false ∨
          env.ct + 5 * 60 < 2 ^ 64 →
        (InternString env st s).1.internStringsMap s =
          some { lastAccessTime := env.ct, s := s }) ∧
      ((env.needCleanup st.internStringsMapLastCleanupTime env.ct).1 = true →
        env.ct < 2 ^ 64 → 2 ^ 64 ≤ env.ct + 5 * 60 →
        (InternString env st s).1.internStringsMap s = none)) := by
  have hU : Logger.uint64Size = 2 ^ 64 := rfl
  constructor
  · intro hlen
    unfold InternString
    simp only [hm, if_pos hlen]
  · intro hlen
    rw [InternString_new env st s hm hlen]
    have hstore : storeEntry st.internStringsMap s { lastAccessTime := env.ct, s := s } s =
        some { lastAccessTime := env.ct, s := s } := by
      unfold storeEntry
      rw [if_pos rfl]
    refine ⟨?_, ?_, ?_, ?_, ?_⟩
    · split <;> rfl
    · intro hc
      rw [if_neg (by rw [hc]; decide)]
    · intro hc
      rw [if_pos hc]
    · intro hct
      split
      · rename_i hrun
        rcases hct with hct | hct
        · rw [hct] at hrun
          exact absurd hrun (by decide)
        · show cleanup _ env.ct s = _
          unfold cleanup
          rw [hstore]
          have hmod : (env.ct + 5 * 60) % Logger.uint64Size = env.ct + 5 * 60 :=
            Nat.mod_eq_of_lt hct
          simp only [hmod]
          rw [if_neg (by omega)]
      · exact hstore
    · intro hrun hlt hge
      rw [if_pos hrun]
      show cleanup _ env.ct s = _
      unfold cleanup
      rw [hstore]
      have hmod : (env.ct + 5 * 60) % Logger.uint64Size = env.ct + 5 * 60 - 2 ^ 64 := by
        rw [hU, Nat.mod_eq_sub_mod hge, Nat.mod_eq_of_lt (by omega)]
      simp only [hmod]
      rw [if_pos (by omega)]

/-- Witness for C18: a new short string is stored, and the cleanup that runs
removes the old entry of the sample cache. -/
theorem InternString_uncached_witness :
    (InternString sampleInternEnv sampleInternState "job").1.internStringsMap "job" =
      some { lastAccessTime := 1000, s := "job" } ∧
    (InternString sampleInternEnv sampleInternState "job").2 = "job" :=
  ⟨((InternString_uncached sampleInternEnv sampleInternState "job" (by decide)).2
      (by decide)).2.2.2.1 (Or.inr (by norm_num [sampleInternEnv])),
    ((InternString_uncached sampleInternEnv sampleInternState "job" (by decide)).2
      (by decide)).1⟩

/-- C18, counterexample: at the current time `2 ^ 64 - 1`, interning the
uncached three-byte string `job` under the maximum length 300 stores its entry
and runs the cleanup, which computes `ct + 300` in `uint64`, finds it below
`ct` and deletes the entry just stored: after the call `job` is not in the
cache. -/
theorem InternString_late_entry_deleted :
    sampleInternState.internStringsMap "job" = none ∧
    ¬ (("job".utf8ByteSize : Int) > lateInternEnv.internStringMaxLen) ∧
    (lateInternEnv.needCleanup sampleInternState.internStringsMapLastCleanupTime
      lateInternEnv.ct).1 = true ∧
    (InternString lateInternEnv sampleInternState "job").2 = "job" ∧
    (InternString lateInternEnv sampleInternState "job").1.internStringsMap "job" = none := by
  decide

end Bytesutil
